import Mathlib

/-!
# Verification of the ai-router core against its specification

This development gives a shallow embedding, in Lean 4, of the core state
machines and pure translation functions of the `ai-router` reverse proxy
(TypeScript source under `src/`), and proves (or refutes) the testable
properties stated in the project's specification.

Embedded components:

* `CircuitBreaker` (`src/core/CircuitBreaker.ts`, concatenated into
  `RateLimitTrackerRedis.ts` in the source drop): per-vendor
  closed/open/half-open state machine over 5xx failures.
* `RateLimitTracker` (`src/core/RateLimitTracker.ts`, concatenated into
  `RequestQueue.ts`): per (vendor, model) cooldown and remaining-request
  counters; `shouldAvoid` and `earliestAvailableMs`.
* `Router.executeProviderChain` (`src/core/Router.ts`): the fallback
  attempt loop.
* `RequestQueue.enqueue` (`src/core/RequestQueue.ts`): sync/async split
  and the queue-full guard.
* `AnthropicAdapter.translateRequest` (`src/providers/anthropic.ts`) and
  `anthropicToOpenAI` (`src/routes/messages.ts`): request translators.
* SSE stream splitting/rewriting (`src/providers/anthropic.ts`,
  `src/streaming/anthropicStream.ts`, `src/streaming/googleStream.ts`).
* `requestIdMiddleware` (`src/middleware/requestId.ts`) and the
  per-route reply headers (`src/routes/*.ts`).

JavaScript numbers holding epoch-milliseconds timestamps are modelled as
`Int`; HTTP status codes as `Nat`; JavaScript strings as Lean `String`
(or `List Char` where character-level splitting matters).
-/

namespace AiRouter

/-- The three configured vendors (`src/types/provider.ts`, `enum Provider`). -/
inductive Provider where
  | openai
  | anthropic
  | google
deriving DecidableEq, Repr

/-- Request capabilities (`src/types/provider.ts`, `enum Capability`). -/
inductive Capability where
  | chat
  | images
  | embeddings
deriving DecidableEq, Repr

/-! ## Circuit breaker (`src/core/CircuitBreaker.ts`)

The TypeScript class keeps a `Map<Provider, ProviderCircuit>`; each
circuit is mutated in place by `isAvailable`, `recordSuccess` and
`recordFailure`.  We model one circuit as a structure and each method as
a pure function from circuit to circuit (plus the returned boolean for
`isAvailable`), with `Date.now()` passed in explicitly as `now`. -/

/-- Model of `type CircuitState = 'closed' | 'open' | 'half-open'`. -/
inductive CircuitState where
  | closed
  | opened
  | halfOpen
deriving DecidableEq, Repr

/-- Model of `interface ProviderCircuit` — per-vendor breaker state. -/
structure ProviderCircuit where
  state : CircuitState
  failureCount : Nat
  openedAt : Int          -- epoch ms; 0 = not open
  halfOpenTestInFlight : Bool
deriving DecidableEq, Repr

namespace CircuitBreaker

/-- The circuit created by `getOrCreate` for an unseen vendor. -/
def initCircuit : ProviderCircuit :=
  { state := .closed, failureCount := 0, openedAt := 0, halfOpenTestInFlight := false }

/-- Model of `CircuitBreaker.isAvailable` — returns whether traffic is allowed and
the (possibly mutated) circuit.  `cooldownMs` is the constructor
argument, `now` is `Date.now()`. -/
def isAvailable (cooldownMs : Int) (now : Int) (c : ProviderCircuit) :
    Bool × ProviderCircuit :=
  match c.state with
  | .closed => (true, c)
  | .opened =>
      let elapsed := now - c.openedAt
      if elapsed ≥ cooldownMs then
        (true, { c with state := .halfOpen, halfOpenTestInFlight := true })
      else
        (false, c)
  | .halfOpen =>
      if !c.halfOpenTestInFlight then
        (true, { c with halfOpenTestInFlight := true })
      else
        (false, c)

/-- Model of `CircuitBreaker.recordSuccess` — reset failure count, clear the
half-open probe, close the circuit. -/
def recordSuccess (c : ProviderCircuit) : ProviderCircuit :=
  if c.state ≠ .closed then
    { c with
        failureCount := 0, halfOpenTestInFlight := false,
        state := .closed, openedAt := 0 }
  else
    { c with failureCount := 0, halfOpenTestInFlight := false }

/-- Model of `CircuitBreaker.recordFailure` — 429 and all sub-500 statuses are
ignored; a 5xx reopens a half-open circuit or increments the count
(`failureCount++`) and opens once the incremented count reaches the
threshold. -/
def recordFailure (failureThreshold : Nat) (now : Int) (statusCode : Nat)
    (c : ProviderCircuit) : ProviderCircuit :=
  if statusCode = 429 then c
  else if statusCode < 500 then c
  else if c.state = .halfOpen then
    { c with state := .opened, openedAt := now, halfOpenTestInFlight := false }
  else if c.failureCount + 1 ≥ failureThreshold then
    { c with failureCount := c.failureCount + 1, state := .opened, openedAt := now }
  else
    { c with failureCount := c.failureCount + 1 }

end CircuitBreaker

/-! ## Rate-limit tracker (`src/core/RateLimitTracker.ts`)

State is keyed by `(provider, model)`.  We model one entry as a
structure (absent entries as `none`) and the methods as pure functions,
again with `Date.now()` explicit.  The vendor-specific header extraction
(`extractOpenAIRateLimitHeaders` etc., `src/utils/headers.ts`) produces
the common `RateLimitHeaders` shape; the tracker methods are generic in
the already-parsed values, so we pass the parsed shape (and the parsed
`retry-after` duration) as arguments where the TypeScript methods would
call the extractors. -/

/-- Model of `interface ProviderModelState` — per (vendor, model) tracker entry. -/
structure ProviderModelState where
  coolingDown : Bool
  cooldownUntil : Int                -- epoch ms; 0 = not cooling
  remainingRequests : Option Int
  remainingTokens : Option Int
  resetRequestsAt : Option Int
  resetTokensAt : Option Int
deriving DecidableEq, Repr

/-- Model of `interface RateLimitHeaders` (`src/utils/headers.ts`) — the common
shape produced by the three vendor-specific extractors. -/
structure RateLimitHeaders where
  remainingRequests : Option Int
  remainingTokens : Option Int
  resetRequestsAt : Option Int
  resetTokensAt : Option Int
deriving DecidableEq, Repr

namespace RateLimitTracker

/-- The entry created by `getOrCreate` for an unseen (vendor, model). -/
def initState : ProviderModelState :=
  { coolingDown := false, cooldownUntil := 0, remainingRequests := none,
    remainingTokens := none, resetRequestsAt := none, resetTokensAt := none }

/-- Model of `RateLimitTracker.update` — on 429 set the cooldown from the parsed
`retry-after`; otherwise overwrite the counters from the parsed headers
and clear an elapsed cooldown. -/
def update (now : Int) (parsed : RateLimitHeaders) (retryAfterMs : Int)
    (statusCode : Nat) (s : ProviderModelState) : ProviderModelState :=
  if statusCode = 429 then
    { s with coolingDown := true, cooldownUntil := now + retryAfterMs }
  else
    let s := { s with
      remainingRequests := parsed.remainingRequests,
      remainingTokens := parsed.remainingTokens,
      resetRequestsAt := parsed.resetRequestsAt,
      resetTokensAt := parsed.resetTokensAt }
    if s.coolingDown ∧ now ≥ s.cooldownUntil then
      { s with coolingDown := false, cooldownUntil := 0 }
    else
      s

/-- Model of `RateLimitTracker.shouldAvoid` — returns the boolean and the
(possibly mutated) entry; `none` means the map had no entry for the
key, in which case the method returns `false` without creating one. -/
def shouldAvoid (lowThreshold : Int) (now : Int) :
    Option ProviderModelState → Bool × Option ProviderModelState
  | none => (false, none)
  | some s =>
      -- clear an elapsed cooldown, or report true while still cooling
      if s.coolingDown ∧ now < s.cooldownUntil then
        (true, some s)
      else
        let s := if s.coolingDown then
          { s with coolingDown := false, cooldownUntil := 0 }
        else s
        match s.remainingRequests with
        | some r => if r < lowThreshold then (true, some s) else (false, some s)
        | none => (false, some s)

/-- Loop body of `RateLimitTracker.earliestAvailableMs`: walk the
candidates carrying the accumulator `earliest`, returning `now` as soon
as an unknown or available candidate is met. -/
def earliestGo (lowThreshold : Int) (now : Int) :
    Int → List (Option ProviderModelState) → Int
  | earliest, [] => earliest
  | _, none :: _ => now
  | earliest, some s :: rest =>
      if s.coolingDown ∧ s.cooldownUntil > 0 then
        earliestGo lowThreshold now (min earliest s.cooldownUntil) rest
      else
        match s.remainingRequests with
        | some r =>
            if r < lowThreshold then
              match s.resetRequestsAt with
              | some t => earliestGo lowThreshold now (min earliest t) rest
              | none => earliestGo lowThreshold now earliest rest
            else now
        | none => now

/-- Model of `RateLimitTracker.earliestAvailableMs` — earliest epoch ms at which
any candidate becomes available; the accumulator starts at `now + 60 s`. -/
def earliestAvailableMs (lowThreshold : Int) (now : Int)
    (candidates : List (Option ProviderModelState)) : Int :=
  earliestGo lowThreshold now (now + 60000) candidates

end RateLimitTracker

/-! ## Router attempt loop (`src/core/Router.ts`, `executeProviderChain`)

Each adapter call either resolves to a `ProviderResponse`, rejects with a
`ProviderError` carrying a vendor and a status, or rejects with any
other (transport) error.  The loop is modelled over an oracle
`call : Provider → String → CallOutcome` giving the outcome of the one
attempt the loop would make against each candidate, with header values
abstracted to their parsed shape as for the tracker. -/

/-- Outcome of one `adapter.call` invocation as observed by the
`try`/`catch` in `executeProviderChain`. -/
inductive CallOutcome where
  /-- the promise resolved: a status plus the parsed rate-limit headers -/
  | ok (status : Nat) (headers : RateLimitHeaders) (retryAfterMs : Int)
  /-- the promise rejected with `ProviderError` -/
  | providerError (vendor : Provider) (status : Nat)
      (headers : RateLimitHeaders) (retryAfterMs : Int)
  /-- the promise rejected with anything else (transport failure, bug, …) -/
  | transportError
deriving DecidableEq, Repr

/-- Result of `executeProviderChain`: a `RouterResult`, a propagated
error, or the `AllProvidersExhaustedError`. -/
inductive ChainOutcome where
  | success (provider : Provider) (model : String)
  | providerErrorOut (vendor : Provider) (status : Nat)
  | transportErrorOut
  | exhausted
deriving DecidableEq, Repr

/-- The mutable state the loop touches: the breaker's circuit per vendor
and the tracker's entry per (vendor, model). -/
structure RouterState where
  breaker : Provider → ProviderCircuit
  tracker : Provider → String → Option ProviderModelState

namespace Router

/-- Point update of the breaker map. -/
def setBreaker (st : RouterState) (p : Provider) (c : ProviderCircuit) : RouterState :=
  { st with breaker := fun q => if q = p then c else st.breaker q }

/-- Point update of the tracker map. -/
def setTracker (st : RouterState) (p : Provider) (m : String)
    (s : Option ProviderModelState) : RouterState :=
  { st with tracker := fun q m' =>
      if q = p ∧ m' = m then s else st.tracker q m' }

/-- Tracker `update` as called from the router: `getOrCreate` then
`update` (`RateLimitTracker.update` always creates the entry first). -/
def trackerUpdate (st : RouterState) (now : Int) (p : Provider) (m : String)
    (parsed : RateLimitHeaders) (retryAfterMs : Int) (status : Nat) : RouterState :=
  let s0 := (st.tracker p m).getD RateLimitTracker.initState
  setTracker st p m (some (RateLimitTracker.update now parsed retryAfterMs status s0))

/-- Model of `Router.executeProviderChain` — the attempt loop.  `cfg` arguments
are the breaker constructor parameters and the tracker low threshold;
`hasAdapter` is `config.adapters.has`; `call` is the outcome oracle. -/
def executeProviderChain (failureThreshold : Nat) (cooldownMs lowThreshold : Int)
    (now : Int) (hasAdapter : Provider → Bool)
    (call : Provider → String → CallOutcome) :
    List (Provider × String) → RouterState → ChainOutcome × RouterState
  | [], st => (.exhausted, st)
  | (provider, model) :: rest, st =>
      let (avail, c') := CircuitBreaker.isAvailable cooldownMs now (st.breaker provider)
      let st := setBreaker st provider c'
      if !avail then
        executeProviderChain failureThreshold cooldownMs lowThreshold now
          hasAdapter call rest st
      else
        let (avoid, t') :=
          RateLimitTracker.shouldAvoid lowThreshold now (st.tracker provider model)
        let st := setTracker st provider model t'
        if avoid then
          executeProviderChain failureThreshold cooldownMs lowThreshold now
            hasAdapter call rest st
        else if !hasAdapter provider then
          executeProviderChain failureThreshold cooldownMs lowThreshold now
            hasAdapter call rest st
        else
          match call provider model with
          | .ok status headers retryAfterMs =>
              let st := trackerUpdate st now provider model headers retryAfterMs status
              let st := setBreaker st provider
                (CircuitBreaker.recordSuccess (st.breaker provider))
              (.success provider model, st)
          | .providerError vendor status headers retryAfterMs =>
              let st := trackerUpdate st now provider model headers retryAfterMs status
              let st := setBreaker st provider
                (CircuitBreaker.recordFailure failureThreshold now status
                  (st.breaker provider))
              if status = 429 ∨ status ≥ 500 then
                executeProviderChain failureThreshold cooldownMs lowThreshold now
                  hasAdapter call rest st
              else
                (.providerErrorOut vendor status, st)
          | .transportError =>
              -- `err instanceof ProviderError` is false: rethrown unchanged
              (.transportErrorOut, st)

end Router

/-! ## Request queue (`src/core/RequestQueue.ts`, `enqueue`)

`enqueue` either throws "queue full", blocks the caller on a per-job
promise (sync mode, `estimatedWaitMs ≤ asyncThresholdMs`) or stores the
job and returns an async descriptor.  We model the job map as a list of
jobs and the decision logic as a pure function; the promise side of the
sync path is reflected by the stored job carrying resolve/reject
handles (`hasHandles`). -/

/-- Model of `QueueJob` fields relevant to `enqueue` (`src/types/routing.ts`). -/
structure QueueJob where
  id : String
  createdAt : Int
  timeoutAt : Int
  estimatedWaitMs : Int
  capability : Capability
  requestedModel : String
  status : String           -- 'pending' | 'processing' | 'done' | 'error' | 'expired'
  hasHandles : Bool         -- job.resolve / job.reject attached (sync path)
deriving DecidableEq, Repr

/-- What `enqueue` hands back to the caller: the sync path resolves the
caller with the drained result; the async path returns a descriptor. -/
inductive EnqueueMode where
  | sync
  | async (jobId : String) (estimatedWaitMs : Int)
deriving DecidableEq, Repr

namespace RequestQueue

/-- Model of `RequestQueue.enqueue`.  `jobId` stands for the fresh `randomUUID()`
and `now` for `Date.now()`.  Returns the caller-visible outcome and the
new job map, or the "queue full" error. -/
def enqueue (maxSize : Nat) (timeoutMs asyncThresholdMs : Int)
    (now : Int) (jobId : String) (capability : Capability)
    (requestedModel : String) (estimatedWaitMs : Int)
    (jobs : List QueueJob) : Except String (EnqueueMode × List QueueJob) :=
  if jobs.length ≥ maxSize then
    .error ("Request queue is full (" ++ toString maxSize ++ " max). Try again later.")
  else
    let job : QueueJob :=
      { id := jobId, createdAt := now, timeoutAt := now + timeoutMs,
        estimatedWaitMs := estimatedWaitMs, capability := capability,
        requestedModel := requestedModel, status := "pending",
        hasHandles := estimatedWaitMs ≤ asyncThresholdMs }
    if estimatedWaitMs ≤ asyncThresholdMs then
      .ok (.sync, jobs ++ [job])
    else
      .ok (.async jobId estimatedWaitMs, jobs ++ [job])

end RequestQueue

/-! ## Chat request shapes and the Anthropic translators

`NormalizedChatRequest` (`src/types/request.ts`) is the internal
OpenAI-shaped intermediate; `AnthropicRequest` is the vendor schema
(`src/providers/anthropic.ts`).  JavaScript `undefined` fields are
`Option`; numeric sampling controls are carried as `Rat` (they are only
ever copied, never computed with). -/

/-- Model of `ChatMessage.role` values. -/
inductive ChatRole where
  | system
  | user
  | assistant
  | function
  | tool
deriving DecidableEq, Repr

/-- One entry of a content-part list: `{type: 'text'|'image_url', text?, image_url?}`. -/
structure ChatMessagePart where
  type : String                  -- 'text' | 'image_url'
  text : Option String
deriving DecidableEq, Repr

/-- Model of `ChatMessage.content : string | ChatMessagePart[] | null`. -/
inductive ChatContent where
  | str (s : String)
  | parts (ps : List ChatMessagePart)
  | nullContent
deriving DecidableEq, Repr

/-- Model of `interface ChatMessage`. -/
structure ChatMessage where
  role : ChatRole
  content : ChatContent
  name : Option String
  tool_call_id : Option String
deriving DecidableEq, Repr

/-- Model of `stop?: string | string[]`. -/
inductive StopField where
  | str (s : String)
  | list (l : List String)
deriving DecidableEq, Repr

/-- Model of `interface NormalizedChatRequest` (the fields the Anthropic round
trip touches). -/
structure NormalizedChatRequest where
  model : String
  messages : List ChatMessage
  stream : Option Bool
  temperature : Option Rat
  max_tokens : Option Nat
  top_p : Option Rat
  n : Option Nat
  stop : Option StopField
  presence_penalty : Option Rat
  frequency_penalty : Option Rat
  logprobs : Option Bool
deriving DecidableEq, Repr

/-- Model of `AnthropicMessage.content : string | AnthropicContentBlock[]`;
blocks always have `type: 'text'`. -/
inductive AnthropicContent where
  | str (s : String)
  | blocks (bs : List String)     -- the `text` of each `{type:'text', text}` block
deriving DecidableEq, Repr

/-- Model of `interface AnthropicMessage` — role is only user or assistant. -/
structure AnthropicMessage where
  isAssistant : Bool
  content : AnthropicContent
deriving DecidableEq, Repr

/-- Model of `interface AnthropicRequest`. -/
structure AnthropicRequest where
  model : String
  messages : List AnthropicMessage
  system : Option String
  max_tokens : Nat
  temperature : Option Rat
  top_p : Option Rat
  stop_sequences : Option (List String)
  stream : Option Bool
deriving DecidableEq, Repr

namespace AnthropicAdapter

/-- JavaScript truthiness of the `stop` field (`if (body.stop)`):
`undefined` and the empty string are falsy, arrays are truthy. -/
def stopTruthy : Option StopField → Bool
  | none => false
  | some (.str s) => !(s = "")
  | some (.list _) => true

/-- Model of `AnthropicAdapter.convertMessage` — assistant keeps its role,
everything else becomes user; string content passes through, part lists
keep only `type === 'text'` entries (`text ?? ''`), `null` becomes `''`. -/
def convertMessage (m : ChatMessage) : AnthropicMessage :=
  let isAssistant := m.role = ChatRole.assistant
  match m.content with
  | .str s => { isAssistant := isAssistant, content := .str s }
  | .parts ps =>
      { isAssistant := isAssistant,
        content := .blocks ((ps.filter (fun p => p.type = "text")).map
          (fun p => p.text.getD "")) }
  | .nullContent => { isAssistant := isAssistant, content := .str "" }

/-- The concatenated system prompt: contents of the system messages
(`typeof content === 'string' ? content : ''`) joined with `"\n\n"`. -/
def systemText (messages : List ChatMessage) : String :=
  String.intercalate "\n\n"
    ((messages.filter (fun m => m.role = ChatRole.system)).map
      (fun m => match m.content with | .str s => s | _ => ""))

/-- Model of `AnthropicAdapter.translateRequest` — OpenAI body → Anthropic body. -/
def translateRequest (body : NormalizedChatRequest) (providerModel : String) :
    AnthropicRequest :=
  let messages := body.messages
  let systemMessages := systemText messages
  let convertedMessages :=
    (messages.filter (fun m => m.role ≠ ChatRole.system)).map convertMessage
  { model := providerModel
    messages := convertedMessages
    system := if systemMessages ≠ "" then some systemMessages else none
    max_tokens := body.max_tokens.getD 4096
    temperature := body.temperature
    top_p := body.top_p
    stop_sequences :=
      match body.stop with
      | some (.str s) => if s ≠ "" then some [s] else none
      | some (.list l) => some l
      | none => none
    stream := body.stream }

end AnthropicAdapter

namespace MessagesRoute

/-- Model of `anthropicToOpenAI` (`src/routes/messages.ts`) — Anthropic request →
internal OpenAI shape.  A truthy `system` becomes one leading system
message; user/assistant messages pass through, content-block lists are
flattened to their concatenated text. -/
def anthropicToOpenAI (body : AnthropicRequest) : NormalizedChatRequest :=
  let headMessages : List ChatMessage :=
    match body.system with
    | some s => if s ≠ "" then
        [{ role := .system, content := .str s, name := none, tool_call_id := none }]
      else []
    | none => []
  let tailMessages : List ChatMessage :=
    body.messages.map (fun m =>
      { role := if m.isAssistant then ChatRole.assistant else ChatRole.user
        content := match m.content with
          | .str s => .str s
          | .blocks bs => .str (String.join bs)
        name := none
        tool_call_id := none })
  { model := body.model
    messages := headMessages ++ tailMessages
    stream := body.stream
    temperature := body.temperature
    max_tokens := some body.max_tokens
    top_p := body.top_p
    n := none
    stop := (body.stop_sequences.map fun l => StopField.list l)
    presence_penalty := none
    frequency_penalty := none
    logprobs := none }

end MessagesRoute

/-! ## The Anthropic adapter's capability guard
(`src/providers/anthropic.ts`, `AnthropicAdapter.call`)

For any capability other than chat, `call` throws
`new ProviderError('anthropic', 400, {}, …)` before the `undiciRequest`
is built.  We model `call`'s outcome over an `http` oracle standing for
the network round trip: the guard branch never consults it. -/

namespace AnthropicAdapter

/-- Parsing the empty header record `{}`: every counter is absent and
`parseRetryAfter(undefined)` yields the 60 s default
(`src/utils/headers.ts`). -/
def emptyParsedHeaders : RateLimitHeaders :=
  { remainingRequests := none, remainingTokens := none,
    resetRequestsAt := none, resetTokensAt := none }

/-- Model of `AnthropicAdapter.call` as observed by the router's `try`/`catch`:
the capability guard, then the HTTP round trip (oracle). -/
def call (capability : Capability) (http : Unit → CallOutcome) : CallOutcome :=
  if capability ≠ .chat then
    .providerError .anthropic 400 emptyParsedHeaders 60000
  else
    http ()

end AnthropicAdapter

/-! ## Request-id middleware and per-route reply headers

`requestIdMiddleware` (`src/middleware/requestId.ts`, concatenated into
`providers/openai.ts` in the source drop) echoes any non-empty inbound
`x-request-id` string and otherwise mints a fresh `randomUUID()`; it
attaches the chosen id as a response header on every route that lists it
as a `preHandler` (chat, messages, images).

The handlers themselves add further headers on routed (non-queued,
non-error) replies: `createMessagesRoutes` sets `x-ai-router-provider`
and `x-ai-router-model` (`src/routes/messages.ts` lines 90–91); the
chat handler (`createChatRoutes`) and the images handler
(`createImageRoutes`) set no such headers before sending the routed
body. -/

namespace Routes

/-- The id chosen by `requestIdMiddleware`: the inbound header when it
is a string of positive length, otherwise the fresh UUID. -/
def computeRequestId (inbound : Option String) (freshUuid : String) : String :=
  match inbound with
  | some existing => if existing.length > 0 then existing else freshUuid
  | none => freshUuid

/-- Headers carried by a routed (200, non-queued) reply of
`createChatRoutes`: only the middleware's request id — the handler adds
none of its own. -/
def chatRoutedReplyHeaders (requestId : String)
    (_provider : Provider) (_servedModel : String) : List (String × String) :=
  [("x-request-id", requestId)]

/-- Headers carried by a routed reply of `createImageRoutes`: likewise
only the request id. -/
def imagesRoutedReplyHeaders (requestId : String)
    (_provider : Provider) (_servedModel : String) : List (String × String) :=
  [("x-request-id", requestId)]

/-- Headers carried by a routed reply of `createMessagesRoutes`: the
request id from the middleware plus the two router headers set by the
handler. -/
def messagesRoutedReplyHeaders (requestId : String)
    (provider : Provider) (servedModel : String) : List (String × String) :=
  [("x-request-id", requestId),
   ("x-ai-router-provider",
      match provider with
      | .openai => "openai" | .anthropic => "anthropic" | .google => "google"),
   ("x-ai-router-model", servedModel)]

/-- Modelled from the spec: "x-request-id (echoed from inbound if
well-formed, otherwise a fresh UUID)" (§6).  Well-formedness of a UUID:
the canonical 8-4-4-4-12 lowercase/uppercase hex form.  The middleware
in the source performs no such check; this definition exists only to
state the claim being tested. -/
def isHexDigit (c : Char) : Bool :=
  (('0' ≤ c ∧ c ≤ '9') ∨ ('a' ≤ c ∧ c ≤ 'f') ∨ ('A' ≤ c ∧ c ≤ 'F') : Bool)

/-- Modelled from the spec: canonical UUID shape check (see
`isHexDigit`). -/
def isWellFormedUuid (s : String) : Bool :=
  let cs := s.toList
  cs.length = 36 ∧
  (List.range 36).all (fun i =>
    if i = 8 ∨ i = 13 ∨ i = 18 ∨ i = 23 then
      (cs.getD i ' ') = '-'
    else
      isHexDigit (cs.getD i ' '))

/-- Modelled from the spec: the request id the spec prescribes — echo
the inbound header only when well-formed, else the fresh UUID. -/
def specRequestId (inbound : Option String) (freshUuid : String) : String :=
  match inbound with
  | some existing => if isWellFormedUuid existing then existing else freshUuid
  | none => freshUuid

end Routes

/-! ## SSE stream splitting and rewriting

Upstream bodies arrive as byte chunks; a line may be split across
chunks.  The adapters' `bodyToAsyncIterable`
(`src/providers/anthropic.ts`, `src/providers/google.ts`) accumulate a
`buffer`, split on `'\n'`, keep the final fragment as the new buffer,
and convert complete lines; `normalizeAnthropicStream` and
`normalizeGoogleStream` (`src/streaming/*.ts`) split each chunk on
`'\n'` with no cross-chunk buffer.  Chunks and lines are modelled as
`List Char`. -/

namespace Streaming

/-- Helper `consHead c ls` prepends `c` to the first element of `ls`. -/
def consHead (c : Char) : List (List Char) → List (List Char)
  | [] => [[c]]
  | l :: ls => (c :: l) :: ls

/-- JavaScript `s.split('\n')` — always returns at least one segment. -/
def splitNl : List Char → List (List Char)
  | [] => [[]]
  | c :: rest => if c = '\n' then [] :: splitNl rest else consHead c (splitNl rest)

/-- The whitespace stripped by JavaScript `String.prototype.trim`
(ASCII portion). -/
def jsTrimWs (c : Char) : Bool :=
  c = ' ' ∨ c = '\t' ∨ c = '\n' ∨ c = '\r' ∨ c = '\x0b' ∨ c = '\x0c'

/-- JavaScript `s.trim()`. -/
def jsTrim (s : List Char) : List Char :=
  ((s.dropWhile jsTrimWs).reverse.dropWhile jsTrimWs).reverse

/-- Loop of the adapters' `bodyToAsyncIterable`: carry the partial-line
`buffer` across chunks; after the last chunk, convert the remaining
buffer when its trim is non-empty. -/
def lineBufferedGo (conv : List Char → Option (List Char)) :
    List Char → List (List Char) → List (List Char)
  | buffer, [] =>
      if jsTrim buffer ≠ [] then (conv buffer).toList else []
  | buffer, chunk :: rest =>
      let lines := splitNl (buffer ++ chunk)
      ((lines.dropLast).filterMap conv) ++
        lineBufferedGo conv (lines.getLastD []) rest

/-! ### JSON (`JSON.parse` / `JSON.stringify` as used by the line
converters) -/

/-- JSON parse-time whitespace. -/
def jsonWs (c : Char) : Bool :=
  c = ' ' ∨ c = '\t' ∨ c = '\n' ∨ c = '\r'

/-- Skip JSON whitespace. -/
def skipWs : List Char → List Char
  | [] => []
  | c :: rest => if jsonWs c then skipWs rest else c :: rest

/-- A parsed JSON value.  Numbers keep their source characters (they
are never re-interpreted by the code under verification). -/
inductive Jval where
  | jnull
  | jbool (b : Bool)
  | jnum (raw : List Char)
  | jstr (s : List Char)
  | jarr (elems : List Jval)
  | jobj (fields : List (List Char × Jval))

/-- Hex digit value. -/
def hexVal (c : Char) : Option Nat :=
  if '0' ≤ c ∧ c ≤ '9' then some (c.toNat - '0'.toNat)
  else if 'a' ≤ c ∧ c ≤ 'f' then some (c.toNat - 'a'.toNat + 10)
  else if 'A' ≤ c ∧ c ≤ 'F' then some (c.toNat - 'A'.toNat + 10)
  else none

/-- Decimal digit test. -/
def isDigit (c : Char) : Bool := '0' ≤ c ∧ c ≤ '9'

/-- Parse the body of a JSON string literal (after the opening quote),
returning the decoded characters and the input after the closing
quote. -/
def parseStringBody : Nat → List Char → Option (List Char × List Char)
  | 0, _ => none
  | _, [] => none
  | fuel + 1, c :: rest =>
      if c = '"' then some ([], rest)
      else if c = '\\' then
        match rest with
        | [] => none
        | e :: rest' =>
            let simple : Option Char :=
              if e = '"' then some '"'
              else if e = '\\' then some '\\'
              else if e = '/' then some '/'
              else if e = 'b' then some '\x08'
              else if e = 'f' then some '\x0c'
              else if e = 'n' then some '\n'
              else if e = 'r' then some '\r'
              else if e = 't' then some '\t'
              else none
            match simple with
            | some d =>
                (parseStringBody fuel rest').map (fun p => (d :: p.1, p.2))
            | none =>
                if e = 'u' then
                  match rest' with
                  | h1 :: h2 :: h3 :: h4 :: rest'' =>
                      match hexVal h1, hexVal h2, hexVal h3, hexVal h4 with
                      | some a, some b, some c', some d =>
                          (parseStringBody fuel rest'').map (fun p =>
                            (Char.ofNat (((a * 16 + b) * 16 + c') * 16 + d) :: p.1, p.2))
                      | _, _, _, _ => none
                  | _ => none
                else none
      else if c.toNat < 32 then none     -- raw control characters are invalid
      else (parseStringBody fuel rest).map (fun p => (c :: p.1, p.2))

/-- Parse a JSON number, returning its raw characters and the rest. -/
def parseNumber (s : List Char) : Option (List Char × List Char) :=
  let (sign, s1) := match s with
    | '-' :: r => (['-'], r)
    | _ => (([] : List Char), s)
  match s1 with
  | [] => none
  | d :: _ =>
      if !isDigit d then none
      else
        let intPart := s1.takeWhile isDigit
        let rest := s1.dropWhile isDigit
        -- "0" must stand alone as the integer part
        if intPart.length > 1 ∧ intPart.headD '0' = '0' then none
        else
          let (fracPart, rest) := match rest with
            | '.' :: r =>
                let ds := r.takeWhile isDigit
                if ds = [] then ([], '.' :: r)       -- invalid; left for caller
                else ('.' :: ds, r.dropWhile isDigit)
            | _ => (([] : List Char), rest)
          let (expPart, rest) := match rest with
            | e :: r =>
                if e = 'e' ∨ e = 'E' then
                  let (sgn, r') := match r with
                    | '+' :: r'' => (['+'], r'')
                    | '-' :: r'' => (['-'], r'')
                    | _ => (([] : List Char), r)
                  let ds := r'.takeWhile isDigit
                  if ds = [] then ([], e :: r)
                  else (e :: (sgn ++ ds), r'.dropWhile isDigit)
                else ([], e :: r)
            | [] => (([] : List Char), [])
          some (sign ++ intPart ++ fracPart ++ expPart, rest)

mutual

/-- Parse one JSON value from the (whitespace-skipped) input. -/
def parseVal : Nat → List Char → Option (Jval × List Char)
  | 0, _ => none
  | _, [] => none
  | fuel + 1, c :: rest =>
      if c = '"' then
        (parseStringBody fuel rest).map (fun p => (.jstr p.1, p.2))
      else if c = '\x7b' then
        parseObjFields fuel true (skipWs rest)
      else if c = '[' then
        parseArrElems fuel true (skipWs rest)
      else if c = 't' then
        match rest with
        | 'r' :: 'u' :: 'e' :: r => some (.jbool true, r)
        | _ => none
      else if c = 'f' then
        match rest with
        | 'a' :: 'l' :: 's' :: 'e' :: r => some (.jbool false, r)
        | _ => none
      else if c = 'n' then
        match rest with
        | 'u' :: 'l' :: 'l' :: r => some (.jnull, r)
        | _ => none
      else
        (parseNumber (c :: rest)).map (fun p => (.jnum p.1, p.2))

/-- Parse the fields of an object after `{` (and whitespace); `first`
marks whether no field has been read yet (so `}` may follow
immediately). -/
def parseObjFields : Nat → Bool → List Char → Option (Jval × List Char)
  | 0, _, _ => none
  | _, _, [] => none
  | fuel + 1, first, c :: rest =>
      if c = '\x7d' ∧ first then some (.jobj [], rest)
      else
        -- a field: string key, ':', value, then ',' more fields or '}'
        if c = '"' then
          match parseStringBody fuel rest with
          | none => none
          | some (key, afterKey) =>
              match skipWs afterKey with
              | ':' :: afterColon =>
                  match parseVal fuel (skipWs afterColon) with
                  | none => none
                  | some (v, afterVal) =>
                      match skipWs afterVal with
                      | ',' :: afterComma =>
                          match parseObjFields fuel false (skipWs afterComma) with
                          | some (.jobj fields, r) => some (.jobj ((key, v) :: fields), r)
                          | _ => none
                      | '\x7d' :: r => some (.jobj [(key, v)], r)
                      | _ => none
              | _ => none
        else none

/-- Parse the elements of an array after `[` (and whitespace). -/
def parseArrElems : Nat → Bool → List Char → Option (Jval × List Char)
  | 0, _, _ => none
  | _, _, [] => none
  | fuel + 1, first, c :: rest =>
      if c = ']' ∧ first then some (.jarr [], rest)
      else
        match parseVal fuel (c :: rest) with
        | none => none
        | some (v, afterVal) =>
            match skipWs afterVal with
            | ',' :: afterComma =>
                match parseArrElems fuel false (skipWs afterComma) with
                | some (.jarr elems, r) => some (.jarr (v :: elems), r)
                | _ => none
            | ']' :: r => some (.jarr [v], r)
            | _ => none

end

/-- Model of `JSON.parse` — succeeds when one value consumes the whole input
(modulo whitespace). -/
def jsonParse (s : List Char) : Option Jval :=
  match parseVal (s.length + 2) (skipWs s) with
  | some (v, rest) => if skipWs rest = [] then some v else none
  | none => none

/-- Lower-case hex digit for `\u00XX` escapes. -/
def toHexDigit (n : Nat) : Char :=
  if n < 10 then Char.ofNat ('0'.toNat + n) else Char.ofNat ('a'.toNat + n - 10)

/-- Model of `JSON.stringify` escaping of one character inside a string. -/
def jsonEscapeChar (c : Char) : List Char :=
  if c = '"' then ['\\', '"']
  else if c = '\\' then ['\\', '\\']
  else if c = '\x08' then ['\\', 'b']
  else if c = '\x0c' then ['\\', 'f']
  else if c = '\n' then ['\\', 'n']
  else if c = '\r' then ['\\', 'r']
  else if c = '\t' then ['\\', 't']
  else if c.toNat < 32 then
    ['\\', 'u', '0', '0', toHexDigit (c.toNat / 16), toHexDigit (c.toNat % 16)]
  else [c]

/-- Model of `JSON.stringify` of a string's characters (without the quotes). -/
def jsonEscape (s : List Char) : List Char := s.flatMap jsonEscapeChar

mutual

/-- Model of `JSON.stringify` of a parsed value (used for values spliced from
the input into an output chunk). -/
def stringifyJval : Jval → List Char
  | .jnull => "null".toList
  | .jbool true => "true".toList
  | .jbool false => "false".toList
  | .jnum raw => raw
  | .jstr s => '"' :: (jsonEscape s ++ ['"'])
  | .jarr elems => '[' :: (stringifyElems elems ++ [']'])
  | .jobj fields => '\x7b' :: (stringifyFields fields ++ ['\x7d'])

/-- Comma-separated serialization of array elements. -/
def stringifyElems : List Jval → List Char
  | [] => []
  | [v] => stringifyJval v
  | v :: vs => stringifyJval v ++ ',' :: stringifyElems vs

/-- Comma-separated serialization of object fields. -/
def stringifyFields : List (List Char × Jval) → List Char
  | [] => []
  | [kv] => '"' :: (jsonEscape kv.1 ++ ['"', ':'] ++ stringifyJval kv.2)
  | kv :: kvs =>
      ('"' :: (jsonEscape kv.1 ++ ['"', ':'] ++ stringifyJval kv.2)) ++
        ',' :: stringifyFields kvs

end

/-- JavaScript property access `obj[key]` on a parsed JSON value
(`undefined` as `none`; duplicate keys resolve to the last one, as in
`JSON.parse`). -/
def getField (j : Jval) (key : String) : Option Jval :=
  match j with
  | .jobj fields => ((fields.reverse).find? (fun kv => kv.1 = key.toList)).map (·.2)
  | _ => none

/-- The string carried by a `Jval`, when it is one. -/
def asString : Jval → Option (List Char)
  | .jstr s => some s
  | _ => none

/-- JavaScript truthiness of a parsed JSON value. -/
def jvalTruthy : Jval → Bool
  | .jnull => false
  | .jbool b => b
  | .jnum raw => !(raw = ['0'] ∨ raw = ['-', '0'])
  | .jstr s => !(s = [])
  | .jarr _ => true
  | .jobj _ => true

/-! ### The per-line converters -/

/-- The `'data: '` SSE prefix. -/
def dataMarker : List Char := "data: ".toList

/-- Model of `'data: [DONE]\n\n'`. -/
def doneChunk : List Char := "data: [DONE]\n\n".toList

/-- A quoted, escaped JSON string literal. -/
def quoteStr (s : List Char) : List Char := '"' :: (jsonEscape s ++ ['"'])

/-- Decimal rendering of an integer (JS template interpolation). -/
def intChars (n : Int) : List Char := (toString n).toList

/-- Model of `AnthropicAdapter.mapStopReason` / shared stop-reason mapping. -/
def mapStopReason (s : List Char) : List Char :=
  if s = "end_turn".toList then "stop".toList
  else if s = "max_tokens".toList then "length".toList
  else if s = "stop_sequence".toList then "stop".toList
  else "stop".toList

/-- Model of `mapStopReason` applied to a parsed value (`as string` cast: any
non-string falls to the switch's default `'stop'`). -/
def mapStopReasonJ (v : Jval) : List Char :=
  match asString v with
  | some s => mapStopReason s
  | none => "stop".toList

/-- Model of `GoogleAdapter.mapFinishReason`. -/
def mapFinishReason (s : List Char) : List Char :=
  if s = "STOP".toList then "stop".toList
  else if s = "MAX_TOKENS".toList then "length".toList
  else if s = "SAFETY".toList then "content_filter".toList
  else "stop".toList

/-- Model of `mapFinishReason` applied to a parsed value (non-strings fall to
the default `'stop'`). -/
def mapFinishReasonJ (v : Jval) : List Char :=
  match asString v with
  | some s => mapFinishReason s
  | none => "stop".toList

/-- The common head of an emitted `chat.completion.chunk` SSE line:
`data: \x7b"id":"chatcmpl-<now>","object":…,"created":<now / 1000>,
"model":…,"choices":[\x7b"index":0,"delta":` — `now` is `Date.now()`
and `created` is `currentTimestamp()` (`Math.floor(Date.now() / 1000)`,
`src/providers/base.ts`). -/
def chunkHead (now : Int) (model : List Char) : List Char :=
  "data: \x7b\"id\":\"chatcmpl-".toList ++ intChars now ++
  "\",\"object\":\"chat.completion.chunk\",\"created\":".toList ++
  intChars (Int.fdiv now 1000) ++
  ",\"model\":".toList ++ quoteStr model ++
  ",\"choices\":[\x7b\"index\":0,\"delta\":".toList

/-- The serialized `delta` object: `\x7b"content":<text>\x7d` when the
`text` property exists, `\x7b\x7d` when it is absent (`JSON.stringify`
drops `undefined` properties). -/
def deltaObj : Option Jval → List Char
  | some v => "\x7b\"content\":".toList ++ stringifyJval v ++ ['\x7d']
  | none => "\x7b\x7d".toList

/-- The serialized `finish_reason` under the `x ? map(x) : null`
pattern, with `map` the given reason mapping. -/
def finishReasonStr (mapJ : Jval → List Char) : Option Jval → List Char
  | some v => if jvalTruthy v then quoteStr (mapJ v) else "null".toList
  | none => "null".toList

/-- Closing of an emitted chunk line: `,"finish_reason":<fr>\x7d]\x7d\n\n`. -/
def chunkTail (fr : List Char) : List Char :=
  ",\"finish_reason\":".toList ++ fr ++ "\x7d]\x7d\n\n".toList

/-- Model of `AnthropicAdapter.convertStreamLine` — one Anthropic SSE line to an
OpenAI SSE chunk (or `none` for swallowed lines). -/
def convertAnthropicStreamLine (now : Int) (model : List Char)
    (line : List Char) : Option (List Char) :=
  if !(dataMarker.isPrefixOf line) then none
  else
    let dataStr := jsTrim (line.drop 6)
    if dataStr = [] then none
    else
      match jsonParse dataStr with
      | none => none
      | some data =>
          match (getField data "type").bind asString with
          | none => none
          | some t =>
              if t = "content_block_delta".toList then
                match getField data "delta" with
                | none => none
                | some delta =>
                    if !(jvalTruthy delta) then none
                    else if ((getField delta "type").bind asString) ≠
                        some "text_delta".toList then none
                    else
                      some (chunkHead now model ++
                        deltaObj (getField delta "text") ++
                        chunkTail "null".toList)
              else if t = "message_delta".toList then
                match getField data "delta" with
                | none => none
                | some delta =>
                    if !(jvalTruthy delta) then none
                    else
                      some (chunkHead now model ++ deltaObj none ++
                        chunkTail (finishReasonStr mapStopReasonJ
                          (getField delta "stop_reason")))
              else if t = "message_stop".toList then
                some doneChunk
              else none

/-- Array index access `xs?.[0]`. -/
def firstElem : Jval → Option Jval
  | .jarr es => es.head?
  | _ => none

/-- Model of `GoogleAdapter.convertStreamLine` — one Google SSE line to an
OpenAI SSE chunk. -/
def convertGoogleStreamLine (now : Int) (model : List Char)
    (line : List Char) : Option (List Char) :=
  if !(dataMarker.isPrefixOf line) then none
  else
    let dataStr := jsTrim (line.drop 6)
    if dataStr = [] ∨ dataStr = "[DONE]".toList then none
    else
      match jsonParse dataStr with
      | none => none
      | some data =>
          match (getField data "candidates").bind firstElem with
          | none => none
          | some candidate =>
              if !(jvalTruthy candidate) then none
              else
                let text :=
                  (((getField candidate "content").bind
                    (getField · "parts")).bind firstElem).bind
                    (getField · "text")
                let fr := finishReasonStr mapFinishReasonJ
                  (getField candidate "finishReason")
                some (chunkHead now model ++ deltaObj text ++ chunkTail fr)

/-! ### The stream pipelines -/

/-- Model of `AnthropicAdapter.bodyToAsyncIterable` — buffered line splitting
over the upstream chunks, each complete line put through
`convertStreamLine`. -/
def anthropicBodyToAsyncIterable (now : Int) (model : List Char)
    (chunks : List (List Char)) : List (List Char) :=
  lineBufferedGo (convertAnthropicStreamLine now model) [] chunks

/-- Model of `GoogleAdapter.bodyToAsyncIterable` — as for Anthropic, with a
final `[DONE]` marker. -/
def googleBodyToAsyncIterable (now : Int) (model : List Char)
    (chunks : List (List Char)) : List (List Char) :=
  lineBufferedGo (convertGoogleStreamLine now model) [] chunks ++ [doneChunk]

/-- Model of `normalizeAnthropicStream` (`src/streaming/anthropicStream.ts`) —
splits each chunk on `'\n'` with no cross-chunk buffering. -/
def normalizeAnthropicStream (now : Int) (model : List Char)
    (chunks : List (List Char)) : List (List Char) :=
  chunks.flatMap (fun chunk =>
    (splitNl chunk).filterMap (convertAnthropicStreamLine now model))

/-- Model of `normalizeGoogleStream` (`src/streaming/googleStream.ts`) — as for
Anthropic plus a trailing `[DONE]`. -/
def normalizeGoogleStream (now : Int) (model : List Char)
    (chunks : List (List Char)) : List (List Char) :=
  (chunks.flatMap (fun chunk =>
    (splitNl chunk).filterMap (convertGoogleStreamLine now model))) ++ [doneChunk]

end Streaming

/-! ## Auxiliary definitions used to state the claims -/

namespace RateLimitTracker

/-- Modelled from the spec (§4.3): the per-candidate availability bound
named by the claim — `cooldownUntil` if cooling, else `resetRequestsAt`
if the remaining counter is low, else `now`; a low candidate without a
reset falls back to `now + 60 s`. -/
def specCandidateBound (lowThreshold now : Int) :
    Option ProviderModelState → Int
  | none => now
  | some s =>
      if s.coolingDown ∧ s.cooldownUntil > 0 then s.cooldownUntil
      else
        match s.remainingRequests with
        | some r =>
            if r < lowThreshold then
              match s.resetRequestsAt with
              | some t => t
              | none => now + 60000
            else now
        | none => now

/-- Freshness of one candidate entry: no stored instant lies in the
past.  This is the regime the tracker is in whenever its cooldowns and
resets were set from the current clock. -/
def FreshEntry (lowThreshold now : Int) : Option ProviderModelState → Prop
  | none => True
  | some s =>
      (s.coolingDown ∧ s.cooldownUntil > 0 → now ≤ s.cooldownUntil) ∧
      (∀ r t, s.remainingRequests = some r → r < lowThreshold →
        s.resetRequestsAt = some t → now ≤ t)

end RateLimitTracker

/-- An observation fed to the breaker by the router: a success or a
failure with an HTTP status, together with the `Date.now()` at which it
was recorded. -/
inductive BreakerEvent where
  | success
  | failure (status : Nat)
deriving DecidableEq, Repr

namespace CircuitBreaker

/-- Apply one timed observation to a circuit. -/
def applyEvent (failureThreshold : Nat) (c : ProviderCircuit) :
    Int × BreakerEvent → ProviderCircuit
  | (_, .success) => recordSuccess c
  | (now, .failure status) => recordFailure failureThreshold now status c

/-- Run a sequence of timed observations from the initial (closed)
circuit. -/
def runEvents (failureThreshold : Nat) (events : List (Int × BreakerEvent)) :
    ProviderCircuit :=
  events.foldl (applyEvent failureThreshold) initCircuit

/-- One step of the consecutive-5xx counter: a success resets it, a
5xx failure increments it, any other failure leaves it. -/
def consecStep (acc : Nat) (e : Int × BreakerEvent) : Nat :=
  match e.2 with
  | .success => 0
  | .failure status => if 500 ≤ status then acc + 1 else acc

/-- The count of consecutive 5xx failures since the last success in an
observation sequence (non-5xx failures neither reset nor count). -/
def consec5xx (events : List (Int × BreakerEvent)) : Nat :=
  events.foldl consecStep 0

end CircuitBreaker

/-- The Anthropic round trip of claim C8:
`OpenAI body → Anthropic body → OpenAI body`. -/
def anthropicRoundTrip (body : NormalizedChatRequest) (providerModel : String) :
    NormalizedChatRequest :=
  MessagesRoute.anthropicToOpenAI (AnthropicAdapter.translateRequest body providerModel)

/-- A message whose content is a plain string and which carries no
`name` / `tool_call_id` annotation — the shape on which the message
list survives the Anthropic round trip. -/
def PlainStringMessage (m : ChatMessage) : Prop :=
  (∃ s, m.content = ChatContent.str s) ∧ m.name = none ∧ m.tool_call_id = none

/-- A user or assistant role (roles `function` and `tool` are rewritten
to `user` by the Anthropic translation). -/
def UserOrAssistant (m : ChatMessage) : Prop :=
  m.role = ChatRole.user ∨ m.role = ChatRole.assistant

namespace Streaming

/-- What the buffered splitter emits for a whole upstream byte
sequence: every complete line through the converter, then the final
fragment when its trim is non-empty. -/
def emitBuffered (conv : List Char → Option (List Char)) (s : List Char) :
    List (List Char) :=
  ((splitNl s).dropLast.filterMap conv) ++
    (if jsTrim ((splitNl s).getLastD []) ≠ [] then
      (conv ((splitNl s).getLastD [])).toList
    else [])

/-- A chunk that does not end in the middle of a line: empty, or
newline-terminated. -/
def ChunkAligned (c : List Char) : Prop :=
  c = [] ∨ ∃ c', c = c' ++ ['\n']

end Streaming

/-- A tracker entry that is known, not in an applicable cooldown, and
low on remaining requests but without a reset instant — the case in
which `earliestAvailableMs` keeps its `now + 60 s` fallback. -/
def LowWithoutReset (lowThreshold : Int) (c : Option ProviderModelState) : Prop :=
  ∃ s, c = some s ∧ ¬(s.coolingDown = true ∧ s.cooldownUntil > 0) ∧
    (∃ r, s.remainingRequests = some r ∧ r < lowThreshold) ∧
    s.resetRequestsAt = none

/-!
# Theorems
-/

section BreakerTheorems

open CircuitBreaker

/-- Lemma: `recordFailure` ignores everything below 500. -/
theorem recordFailure_sub500 (thr : Nat) (now : Int) (status : Nat)
    (c : ProviderCircuit) (h : status < 500) :
    recordFailure thr now status c = c := by
  unfold recordFailure
  by_cases h429 : status = 429 <;> simp [h429, Nat.lt_irrefl, h]

/-- Lemma: `recordSuccess` always lands on a closed circuit with zero count
and no probe in flight. -/
theorem recordSuccess_fields (c : ProviderCircuit) :
    (recordSuccess c).failureCount = 0 ∧
      (recordSuccess c).halfOpenTestInFlight = false ∧
      (recordSuccess c).state = .closed := by
  unfold recordSuccess
  split
  · exact ⟨rfl, rfl, rfl⟩
  · next h => exact ⟨rfl, rfl, by simpa using h⟩

/-- Lemma: `recordFailure` on a 5xx for a circuit that is not half-open:
increment, and open at the threshold. -/
theorem recordFailure_5xx (thr : Nat) (now : Int) (status : Nat)
    (c : ProviderCircuit) (hs : c.state ≠ .halfOpen) (h5 : 500 ≤ status) :
    recordFailure thr now status c =
      (if c.failureCount + 1 ≥ thr then
        { c with
            failureCount := c.failureCount + 1, state := .opened,
            openedAt := now }
      else { c with failureCount := c.failureCount + 1 }) := by
  unfold recordFailure
  rw [if_neg (by omega), if_neg (by omega), if_neg hs]

/-- Invariant of a breaker run that never calls `isAvailable`: the
failure count tracks the consecutive-5xx count, the circuit is never
half-open, and it is open exactly when the count has reached the
threshold. -/
theorem breaker_foldl_invariant (thr : Nat) (hthr : 1 ≤ thr) :
    ∀ (events : List (Int × BreakerEvent)) (c : ProviderCircuit) (k : Nat),
      c.failureCount = k → c.halfOpenTestInFlight = false →
      c.state ≠ .halfOpen → (c.state = .opened ↔ thr ≤ k) →
      (events.foldl (applyEvent thr) c).failureCount =
          events.foldl consecStep k ∧
        (events.foldl (applyEvent thr) c).halfOpenTestInFlight = false ∧
        (events.foldl (applyEvent thr) c).state ≠ .halfOpen ∧
        ((events.foldl (applyEvent thr) c).state = .opened ↔
          thr ≤ events.foldl consecStep k)
  | [], c, k, hk, hh, hs, ho => by simp [hk, hh, hs, ho]
  | (t, ev) :: rest, c, k, hk, hh, hs, ho => by
      simp only [List.foldl_cons]
      match ev with
      | .success =>
          have hrs := recordSuccess_fields c
          have happ : applyEvent thr c (t, BreakerEvent.success) =
              recordSuccess c := rfl
          have hacc : consecStep k (t, BreakerEvent.success) = 0 := rfl
          rw [happ, hacc]
          exact breaker_foldl_invariant thr hthr rest _ 0
            hrs.1 hrs.2.1 (by rw [hrs.2.2]; simp)
            (by rw [hrs.2.2]; constructor
                · intro h; exact absurd h (by simp)
                · omega)
      | .failure status =>
          have hacc : consecStep k (t, BreakerEvent.failure status) =
              if 500 ≤ status then k + 1 else k := rfl
          rw [hacc]
          by_cases h5 : 500 ≤ status
          · have happ : applyEvent thr c (t, BreakerEvent.failure status) =
                (if c.failureCount + 1 ≥ thr then
                  { c with
                      failureCount := c.failureCount + 1, state := .opened,
                      openedAt := t }
                else { c with failureCount := c.failureCount + 1 }) :=
              recordFailure_5xx thr t status c hs h5
            rw [happ, if_pos h5]
            by_cases hth : c.failureCount + 1 ≥ thr
            · rw [if_pos hth]
              exact breaker_foldl_invariant thr hthr rest _ (k + 1)
                (by simp [hk]) (by simp [hh]) (by simp)
                (by simp; omega)
            · rw [if_neg hth]
              exact breaker_foldl_invariant thr hthr rest _ (k + 1)
                (by simp [hk]) (by simp [hh]) (by simpa using hs)
                (by constructor
                    · intro h
                      have := ho.mp h
                      omega
                    · intro h
                      exact absurd h (by omega))
          · have happ : applyEvent thr c (t, BreakerEvent.failure status) = c :=
              recordFailure_sub500 thr t status c (by omega)
            rw [happ, if_neg h5]
            exact breaker_foldl_invariant thr hthr rest c k hk hh hs ho

/-- Claim C4: For any sequence of `recordSuccess`/`recordFailure` calls
for a vendor starting from the initial closed state, the circuit is
open exactly when the count of consecutive 5xx failures since the last
success has reached the (positive) configured threshold — and the
failure count equals that consecutive count; `recordFailure` with 429
or any non-429 4xx status leaves the circuit (state, failure count,
`openedAt`) entirely unchanged. -/
theorem c4_breaker_opens_iff_consecutive_5xx (thr : Nat) (hthr : 1 ≤ thr)
    (events : List (Int × BreakerEvent)) :
    ((runEvents thr events).state = .opened ↔ thr ≤ consec5xx events) ∧
      (runEvents thr events).failureCount = consec5xx events ∧
      (∀ (now : Int) (status : Nat) (c : ProviderCircuit),
        status = 429 ∨ (400 ≤ status ∧ status < 500) →
        recordFailure thr now status c = c) := by
  have h := breaker_foldl_invariant thr hthr events initCircuit 0
    rfl rfl (by simp [initCircuit]) (by simp [initCircuit]; omega)
  refine ⟨h.2.2.2, h.1, ?_⟩
  intro now status c hst
  refine recordFailure_sub500 thr now status c (by omega)

/-- Witness for C4 at threshold 2 and a concrete observation sequence:
two consecutive 500s open the circuit. -/
theorem c4_breaker_opens_iff_consecutive_5xx_witness :
    (runEvents 2 [(5, .failure 500), (7, .failure 503)]).state = .opened := by
  have h := c4_breaker_opens_iff_consecutive_5xx 2 (by omega)
    [(5, .failure 500), (7, .failure 503)]
  exact h.1.mpr (by decide)

/-- Claim C5: After the circuit opens at time `t`, `isAvailable` reports
false (and leaves the circuit untouched) throughout `[t, t+cooldown)`;
the next call at or after `t+cooldown` reports true and moves the
circuit to half-open with the probe in flight; and while a half-open
probe is in flight every `isAvailable` call reports false and changes
nothing. -/
theorem c5_open_cooldown_halfopen_probe (cooldownMs t now now' : Int)
    (c : ProviderCircuit) (hopen : c.state = .opened) (hat : c.openedAt = t) :
    (t ≤ now → now < t + cooldownMs →
      isAvailable cooldownMs now c = (false, c)) ∧
    (t + cooldownMs ≤ now →
      isAvailable cooldownMs now c =
        (true, { c with state := .halfOpen, halfOpenTestInFlight := true })) ∧
    (∀ c' : ProviderCircuit, c'.state = .halfOpen →
      c'.halfOpenTestInFlight = true →
      isAvailable cooldownMs now' c' = (false, c')) := by
  refine ⟨?_, ?_, ?_⟩
  · intro h1 h2
    unfold isAvailable
    rw [hopen]
    simp only [hat]
    rw [if_neg (by omega)]
  · intro h1
    unfold isAvailable
    rw [hopen]
    simp only [hat]
    rw [if_pos (by omega)]
  · intro c' hς hflight
    unfold isAvailable
    rw [hς]
    simp [hflight]

/-- Witness for C5 with cooldown 100, opened at 50: unavailable at 149,
available (half-open) at 150, then unavailable while the probe flies. -/
theorem c5_open_cooldown_halfopen_probe_witness :
    isAvailable 100 149 (⟨.opened, 3, 50, false⟩ : ProviderCircuit) =
      (false, (⟨.opened, 3, 50, false⟩ : ProviderCircuit)) ∧
    isAvailable 100 150 (⟨.opened, 3, 50, false⟩ : ProviderCircuit) =
      (true, (⟨.halfOpen, 3, 50, true⟩ : ProviderCircuit)) ∧
    isAvailable 100 151 (⟨.halfOpen, 3, 50, true⟩ : ProviderCircuit) =
      (false, (⟨.halfOpen, 3, 50, true⟩ : ProviderCircuit)) := by
  have h := c5_open_cooldown_halfopen_probe 100 50 149 151
    (⟨.opened, 3, 50, false⟩ : ProviderCircuit) rfl rfl
  have h' := c5_open_cooldown_halfopen_probe 100 50 150 151
    (⟨.opened, 3, 50, false⟩ : ProviderCircuit) rfl rfl
  exact ⟨h.1 (by omega) (by omega), h'.2.1 (by omega), h.2.2 _ rfl rfl⟩

end BreakerTheorems

section TrackerTheorems

open RateLimitTracker

/-- Claim C6: `shouldAvoid` is true exactly when the entry is actively
cooling (`now < cooldownUntil`) or its known remaining-request count is
strictly below the threshold; equality with the threshold is not
avoided, threshold − 1 is; and an elapsed cooldown is cleared as a side
effect of the call. -/
theorem c6_should_avoid_iff (lowThreshold now : Int) (s : ProviderModelState) :
    ((shouldAvoid lowThreshold now (some s)).1 = true ↔
      ((s.coolingDown = true ∧ now < s.cooldownUntil) ∨
        (∃ r, s.remainingRequests = some r ∧ r < lowThreshold))) ∧
    (s.remainingRequests = some lowThreshold →
      ¬(s.coolingDown = true ∧ now < s.cooldownUntil) →
      (shouldAvoid lowThreshold now (some s)).1 = false) ∧
    (s.remainingRequests = some (lowThreshold - 1) →
      (shouldAvoid lowThreshold now (some s)).1 = true) ∧
    (s.coolingDown = true → s.cooldownUntil ≤ now →
      (shouldAvoid lowThreshold now (some s)).2 =
        some { s with coolingDown := false, cooldownUntil := 0 }) := by
  simp only [shouldAvoid]
  refine ⟨?_, ?_, ?_, ?_⟩
  · by_cases hcool : s.coolingDown = true ∧ now < s.cooldownUntil
    · rw [if_pos (by simpa using hcool)]
      simp [hcool]
    · rw [if_neg (by simpa using hcool)]
      by_cases hcd : s.coolingDown = true
      · have hle : s.cooldownUntil ≤ now := le_of_not_lt (fun h => hcool ⟨hcd, h⟩)
        cases hrem : s.remainingRequests with
        | none => simp [hcd, hrem, hcool, hle]
        | some r =>
            by_cases hlt : r < lowThreshold <;> simp [hcd, hrem, hlt, hcool, hle]
      · cases hrem : s.remainingRequests with
        | none => simp [hcd, hrem, hcool]
        | some r =>
            by_cases hlt : r < lowThreshold <;> simp [hcd, hrem, hlt, hcool]
  · intro hrem hncool
    rw [if_neg (by simpa using hncool)]
    by_cases hcd : s.coolingDown = true <;> simp [hcd, hrem]
  · intro hrem
    by_cases hcool : s.coolingDown = true ∧ now < s.cooldownUntil
    · rw [if_pos (by simpa using hcool)]
    · rw [if_neg (by simpa using hcool)]
      by_cases hcd : s.coolingDown = true <;> simp [hcd, hrem]
  · intro hcd helapsed
    rw [if_neg (by simp [hcd]; omega)]
    cases hrem : ({ s with coolingDown := false, cooldownUntil := 0 }
        : ProviderModelState).remainingRequests with
    | none => simp [hcd, hrem]
    | some r => by_cases hlt : r < lowThreshold <;> simp [hcd, hrem, hlt]

/-- Witness for C6: an entry cooling until 100 is avoided at 50; an
entry with remaining = threshold is not avoided; threshold − 1 is. -/
theorem c6_should_avoid_iff_witness :
    (shouldAvoid 5 50 (some ⟨true, 100, none, none, none, none⟩)).1 = true ∧
    (shouldAvoid 5 50 (some ⟨false, 0, some 5, none, none, none⟩)).1 = false ∧
    (shouldAvoid 5 50 (some ⟨false, 0, some 4, none, none, none⟩)).1 = true := by
  refine ⟨?_, ?_, ?_⟩
  · exact (c6_should_avoid_iff 5 50 ⟨true, 100, none, none, none, none⟩).1.mpr
      (Or.inl ⟨rfl, by decide⟩)
  · exact (c6_should_avoid_iff 5 50 ⟨false, 0, some 5, none, none, none⟩).2.1
      rfl (by simp)
  · exact (c6_should_avoid_iff 5 50 ⟨false, 0, some 4, none, none, none⟩).2.2.1
      (by norm_num)

end TrackerTheorems

section QueueTheorems

/-- Claim C7: `enqueue` fails with the queue-full error exactly when the
queue already holds `maxSize` jobs (leaving it unchanged), so a queue
that respected the bound keeps respecting it; below the bound, a wait
at or under the async threshold blocks the caller inline (the stored
job carries resolve/reject handles and the caller gets the sync
result), and a longer wait returns immediately with an async
descriptor carrying the job id and the estimated wait. -/
theorem c7_enqueue_policy (maxSize : Nat) (timeoutMs asyncThresholdMs now : Int)
    (jobId : String) (capability : Capability) (requestedModel : String)
    (estimatedWaitMs : Int) (jobs : List QueueJob) :
    (maxSize ≤ jobs.length →
      RequestQueue.enqueue maxSize timeoutMs asyncThresholdMs now jobId capability
          requestedModel estimatedWaitMs jobs =
        .error ("Request queue is full (" ++ toString maxSize ++
          " max). Try again later.")) ∧
    (∀ mode jobs',
      RequestQueue.enqueue maxSize timeoutMs asyncThresholdMs now jobId capability
          requestedModel estimatedWaitMs jobs = .ok (mode, jobs') →
      jobs'.length ≤ maxSize ∧ jobs' = jobs ++
        [{ id := jobId, createdAt := now, timeoutAt := now + timeoutMs,
           estimatedWaitMs := estimatedWaitMs, capability := capability,
           requestedModel := requestedModel, status := "pending",
           hasHandles := estimatedWaitMs ≤ asyncThresholdMs }]) ∧
    (jobs.length < maxSize → estimatedWaitMs ≤ asyncThresholdMs →
      ∃ jobs', RequestQueue.enqueue maxSize timeoutMs asyncThresholdMs now jobId
          capability requestedModel estimatedWaitMs jobs =
        .ok (.sync, jobs')) ∧
    (jobs.length < maxSize → asyncThresholdMs < estimatedWaitMs →
      ∃ jobs', RequestQueue.enqueue maxSize timeoutMs asyncThresholdMs now jobId
          capability requestedModel estimatedWaitMs jobs =
        .ok (.async jobId estimatedWaitMs, jobs')) := by
  unfold RequestQueue.enqueue
  refine ⟨?_, ?_, ?_, ?_⟩
  · intro hfull
    rw [if_pos hfull]
  · intro mode jobs' hok
    by_cases hfull : maxSize ≤ jobs.length
    · rw [if_pos hfull] at hok
      exact absurd hok (by simp)
    · rw [if_neg hfull] at hok
      by_cases hsync : estimatedWaitMs ≤ asyncThresholdMs
      · rw [if_pos hsync] at hok
        injection hok with h
        injection h with h1 h2
        subst h2
        refine ⟨by simpa using by omega, by simp [hsync]⟩
      · rw [if_neg hsync] at hok
        injection hok with h
        injection h with h1 h2
        subst h2
        have : ¬ estimatedWaitMs ≤ asyncThresholdMs := hsync
        refine ⟨by simpa using by omega, by simp [this]⟩
  · intro hroom hsync
    rw [if_neg (by omega), if_pos hsync]
    exact ⟨_, rfl⟩
  · intro hroom hasync
    rw [if_neg (by omega), if_neg (by omega)]
    exact ⟨_, rfl⟩

/-- Witness for C7: queue of capacity 2 holding one job accepts a short
wait synchronously; at capacity it rejects. -/
theorem c7_enqueue_policy_witness :
    (∃ jobs', RequestQueue.enqueue 2 30000 5000 0 "j2" .chat "gpt-4o" 100
        [{ id := "j1", createdAt := 0, timeoutAt := 30000, estimatedWaitMs := 0,
           capability := .chat, requestedModel := "gpt-4o", status := "pending",
           hasHandles := true }] = .ok (.sync, jobs')) ∧
    RequestQueue.enqueue 1 30000 5000 0 "j2" .chat "gpt-4o" 100
        [{ id := "j1", createdAt := 0, timeoutAt := 30000, estimatedWaitMs := 0,
           capability := .chat, requestedModel := "gpt-4o", status := "pending",
           hasHandles := true }] =
      .error ("Request queue is full (" ++ toString 1 ++ " max). Try again later.") := by
  constructor
  · exact (c7_enqueue_policy 2 30000 5000 0 "j2" .chat "gpt-4o" 100
      [{ id := "j1", createdAt := 0, timeoutAt := 30000, estimatedWaitMs := 0,
         capability := .chat, requestedModel := "gpt-4o", status := "pending",
         hasHandles := true }]).2.2.1 (by simp) (by omega)
  · exact (c7_enqueue_policy 1 30000 5000 0 "j2" .chat "gpt-4o" 100
      [{ id := "j1", createdAt := 0, timeoutAt := 30000, estimatedWaitMs := 0,
         capability := .chat, requestedModel := "gpt-4o", status := "pending",
         hasHandles := true }]).1 (by simp)

end QueueTheorems

section EarliestTheorems

open RateLimitTracker

/-- Freshness of every entry keeps the accumulator bounds through the
walk: the result stays between `now` and the starting accumulator. -/
theorem earliestGo_bounds (lowT now : Int) :
    ∀ (cands : List (Option ProviderModelState)) (earliest : Int),
      (∀ c ∈ cands, FreshEntry lowT now c) → now ≤ earliest →
      now ≤ earliestGo lowT now earliest cands ∧
        earliestGo lowT now earliest cands ≤ earliest
  | [], earliest, _, hnow => by
      simp only [earliestGo]
      exact ⟨hnow, le_refl _⟩
  | none :: rest, earliest, _, hnow => by
      simp only [earliestGo]
      exact ⟨le_refl _, hnow⟩
  | some s :: rest, earliest, hfresh, hnow => by
      have hfs : FreshEntry lowT now (some s) := hfresh _ (by simp)
      have hrest : ∀ c ∈ rest, FreshEntry lowT now c :=
        fun c hc => hfresh c (by simp [hc])
      simp only [earliestGo]
      by_cases hcool : s.coolingDown = true ∧ s.cooldownUntil > 0
      · rw [if_pos (by simpa using hcool)]
        have hcu : now ≤ s.cooldownUntil := hfs.1 hcool
        have := earliestGo_bounds lowT now rest (min earliest s.cooldownUntil)
          hrest (le_min hnow hcu)
        exact ⟨this.1, le_trans this.2 (min_le_left _ _)⟩
      · rw [if_neg (by simpa using hcool)]
        cases hrem : s.remainingRequests with
        | none => exact ⟨le_refl _, hnow⟩
        | some r =>
            dsimp only
            by_cases hlt : r < lowT
            · rw [if_pos hlt]
              cases hreset : s.resetRequestsAt with
              | none =>
                  exact earliestGo_bounds lowT now rest earliest hrest hnow
              | some tr =>
                  have htr : now ≤ tr := hfs.2 r tr hrem hlt hreset
                  have := earliestGo_bounds lowT now rest (min earliest tr)
                    hrest (le_min hnow htr)
                  exact ⟨this.1, le_trans this.2 (min_le_left _ _)⟩
            · rw [if_neg hlt]
              exact ⟨le_refl _, hnow⟩

/-- Spec bound of a cooling candidate. -/
theorem specCandidateBound_cooling (lowT now : Int) (s : ProviderModelState)
    (hcool : s.coolingDown = true ∧ s.cooldownUntil > 0) :
    RateLimitTracker.specCandidateBound lowT now (some s) = s.cooldownUntil := by
  simp [RateLimitTracker.specCandidateBound, hcool]

/-- Spec bound of a low candidate with a reset instant. -/
theorem specCandidateBound_low_reset (lowT now : Int) (s : ProviderModelState)
    (r t : Int) (hcool : ¬(s.coolingDown = true ∧ s.cooldownUntil > 0))
    (hrem : s.remainingRequests = some r) (hlt : r < lowT)
    (hreset : s.resetRequestsAt = some t) :
    RateLimitTracker.specCandidateBound lowT now (some s) = t := by
  simp [RateLimitTracker.specCandidateBound, hcool, hrem, hlt, hreset]

/-- Spec bound of a low candidate without a reset instant. -/
theorem specCandidateBound_low_noreset (lowT now : Int) (s : ProviderModelState)
    (r : Int) (hcool : ¬(s.coolingDown = true ∧ s.cooldownUntil > 0))
    (hrem : s.remainingRequests = some r) (hlt : r < lowT)
    (hreset : s.resetRequestsAt = none) :
    RateLimitTracker.specCandidateBound lowT now (some s) = now + 60000 := by
  simp [RateLimitTracker.specCandidateBound, hcool, hrem, hlt, hreset]

/-- Spec bound of an available candidate (remaining at or above the
threshold). -/
theorem specCandidateBound_avail (lowT now : Int) (s : ProviderModelState)
    (r : Int) (hcool : ¬(s.coolingDown = true ∧ s.cooldownUntil > 0))
    (hrem : s.remainingRequests = some r) (hlt : ¬ r < lowT) :
    RateLimitTracker.specCandidateBound lowT now (some s) = now := by
  simp [RateLimitTracker.specCandidateBound, hcool, hrem, hlt]

/-- Spec bound of a candidate with unknown remaining count. -/
theorem specCandidateBound_unknown (lowT now : Int) (s : ProviderModelState)
    (hcool : ¬(s.coolingDown = true ∧ s.cooldownUntil > 0))
    (hrem : s.remainingRequests = none) :
    RateLimitTracker.specCandidateBound lowT now (some s) = now := by
  simp [RateLimitTracker.specCandidateBound, hcool, hrem]

/-- Every fresh candidate's spec bound is at or above `now`. -/
theorem specCandidateBound_ge_now (lowT now : Int)
    (c : Option ProviderModelState) (hfresh : FreshEntry lowT now c) :
    now ≤ specCandidateBound lowT now c := by
  cases c with
  | none => simp [specCandidateBound]
  | some s =>
      simp only [specCandidateBound]
      by_cases hcool : s.coolingDown = true ∧ s.cooldownUntil > 0
      · rw [if_pos (by simpa using hcool)]
        exact hfresh.1 hcool
      · rw [if_neg (by simpa using hcool)]
        cases hrem : s.remainingRequests with
        | none => simp
        | some r =>
            dsimp only
            by_cases hlt : r < lowT
            · rw [if_pos hlt]
              cases hreset : s.resetRequestsAt with
              | none => simp
              | some tr => exact hfresh.2 r tr hrem hlt hreset
            · rw [if_neg hlt]

/-- With fresh entries the walk's result is below every candidate's
spec bound. -/
theorem earliestGo_le_bound (lowT now : Int) :
    ∀ (cands : List (Option ProviderModelState)) (earliest : Int),
      (∀ c ∈ cands, FreshEntry lowT now c) → now ≤ earliest →
      earliest ≤ now + 60000 →
      ∀ c ∈ cands, earliestGo lowT now earliest cands ≤
        specCandidateBound lowT now c
  | [], earliest, _, _, _ => by simp
  | none :: rest, earliest, hfresh, hnow, hcap => by
      intro c hc
      simp only [earliestGo]
      rcases List.mem_cons.mp hc with hc | hc
      · subst hc
        simp [specCandidateBound]
      · exact specCandidateBound_ge_now lowT now c (hfresh c (by simp [hc]))
  | some s :: rest, earliest, hfresh, hnow, hcap => by
      intro c hc
      have hfs : FreshEntry lowT now (some s) := hfresh _ (by simp)
      have hrest : ∀ c ∈ rest, FreshEntry lowT now c :=
        fun c hc => hfresh c (by simp [hc])
      simp only [earliestGo]
      by_cases hcool : s.coolingDown = true ∧ s.cooldownUntil > 0
      · rw [if_pos (by simpa using hcool)]
        have hcu : now ≤ s.cooldownUntil := hfs.1 hcool
        have hbounds := earliestGo_bounds lowT now rest
          (min earliest s.cooldownUntil) hrest (le_min hnow hcu)
        rcases List.mem_cons.mp hc with hc | hc
        · subst hc
          rw [specCandidateBound_cooling lowT now s hcool]
          exact le_trans hbounds.2 (min_le_right _ _)
        · exact earliestGo_le_bound lowT now rest (min earliest s.cooldownUntil)
            hrest (le_min hnow hcu)
            (le_trans (min_le_left _ _) hcap) c hc
      · rw [if_neg (by simpa using hcool)]
        cases hrem : s.remainingRequests with
        | none =>
            dsimp only
            rcases List.mem_cons.mp hc with hc | hc
            · subst hc
              rw [specCandidateBound_unknown lowT now s hcool hrem]
            · exact specCandidateBound_ge_now lowT now c (hfresh c (by simp [hc]))
        | some r =>
            dsimp only
            by_cases hlt : r < lowT
            · rw [if_pos hlt]
              cases hreset : s.resetRequestsAt with
              | none =>
                  rcases List.mem_cons.mp hc with hc | hc
                  · subst hc
                    rw [specCandidateBound_low_noreset lowT now s r hcool hrem
                      hlt hreset]
                    exact le_trans
                      (earliestGo_bounds lowT now rest earliest hrest hnow).2 hcap
                  · exact earliestGo_le_bound lowT now rest earliest hrest hnow
                      hcap c hc
              | some tr =>
                  have htr : now ≤ tr := hfs.2 r tr hrem hlt hreset
                  rcases List.mem_cons.mp hc with hc | hc
                  · subst hc
                    rw [specCandidateBound_low_reset lowT now s r tr hcool hrem
                      hlt hreset]
                    exact le_trans (earliestGo_bounds lowT now rest
                      (min earliest tr) hrest (le_min hnow htr)).2
                      (min_le_right _ _)
                  · exact earliestGo_le_bound lowT now rest (min earliest tr)
                      hrest (le_min hnow htr)
                      (le_trans (min_le_left _ _) hcap) c hc
            · rw [if_neg hlt]
              rcases List.mem_cons.mp hc with hc | hc
              · subst hc
                rw [specCandidateBound_avail lowT now s r hcool hrem hlt]
              · exact specCandidateBound_ge_now lowT now c
                  (hfresh c (by simp [hc]))

/-- When every candidate is low on remaining requests with no reset
instant (and not cooling), the walk keeps its accumulator. -/
theorem earliestGo_all_low_without_reset (lowT now : Int) :
    ∀ (cands : List (Option ProviderModelState)) (earliest : Int),
      (∀ c ∈ cands, LowWithoutReset lowT c) →
      earliestGo lowT now earliest cands = earliest
  | [], earliest, _ => rfl
  | none :: rest, earliest, hlow => by
      exact absurd (hlow none (by simp)) (by simp [LowWithoutReset])
  | some s :: rest, earliest, hlow => by
      obtain ⟨s', hs', hncool, ⟨r, hrem, hlt⟩, hreset⟩ := hlow (some s) (by simp)
      obtain rfl : s' = s := by injection hs' with h; exact h.symm
      simp only [earliestGo]
      rw [if_neg (by simpa using hncool), hrem]
      dsimp only
      rw [if_pos hlt, hreset]
      exact earliestGo_all_low_without_reset lowT now rest earliest
        (fun c hc => hlow c (by simp [hc]))

/-- Claim C2 (amended): When no stored cooldown or reset instant lies in
the past, `earliestAvailableMs` returns a timestamp between `now` and
`now + 60 s` that is below every candidate's bound (`cooldownUntil` if
cooling, else `resetRequestsAt` if remaining is low, else `now`; low
candidates without a reset bound at `now + 60 s`); a non-empty
all-unknown candidate list yields `now`, and when every candidate is
low without a reset the `now + 60 s` fallback is returned.  (As stated
over *every* tracker state the claim fails: a stale `cooldownUntil` in
the past is returned as-is and lies below `now` — see the
counterexample.) -/
theorem c2_earliest_available_bounds (lowT now : Int)
    (cands : List (Option ProviderModelState))
    (hfresh : ∀ c ∈ cands, FreshEntry lowT now c) :
    (now ≤ earliestAvailableMs lowT now cands ∧
      earliestAvailableMs lowT now cands ≤ now + 60000) ∧
    (∀ c ∈ cands, earliestAvailableMs lowT now cands ≤
      specCandidateBound lowT now c) ∧
    (cands ≠ [] → (∀ c ∈ cands, c = none) →
      earliestAvailableMs lowT now cands = now) ∧
    ((∀ c ∈ cands, LowWithoutReset lowT c) →
      earliestAvailableMs lowT now cands = now + 60000) := by
  refine ⟨?_, ?_, ?_, ?_⟩
  · exact earliestGo_bounds lowT now cands (now + 60000) hfresh (by omega)
  · exact earliestGo_le_bound lowT now cands (now + 60000) hfresh (by omega)
      (le_refl _)
  · intro hne hall
    cases cands with
    | nil => exact absurd rfl hne
    | cons c rest =>
        have : c = none := hall c (by simp)
        subst this
        simp [earliestAvailableMs, earliestGo]
  · exact earliestGo_all_low_without_reset lowT now cands (now + 60000)

/-- Witness for C2 (amended): one fresh cooling candidate
(`cooldownUntil = 5000`, `now = 1000`) yields exactly its cooldown
instant, which lies within the claimed bounds. -/
theorem c2_earliest_available_bounds_witness :
    earliestAvailableMs 5 1000 [some ⟨true, 5000, none, none, none, none⟩] = 5000 ∧
    (1000 : Int) ≤ 5000 ∧ (5000 : Int) ≤ 1000 + 60000 := by
  have h := c2_earliest_available_bounds 5 1000
    [some ⟨true, 5000, none, none, none, none⟩]
    (by
      intro c hc
      simp only [List.mem_singleton] at hc
      subst hc
      exact ⟨fun _ => by decide, fun r t hr => by simp at hr⟩)
  refine ⟨?_, by decide, by decide⟩
  have h1 := h.2.1 (some ⟨true, 5000, none, none, none, none⟩) (by simp)
  have h2 := h.1.1
  have hsb : specCandidateBound 5 1000
      (some ⟨true, 5000, none, none, none, none⟩) = 5000 := by decide
  rw [hsb] at h1
  have h3 : earliestAvailableMs 5 1000
      [some ⟨true, 5000, none, none, none, none⟩] = 5000 := by decide
  exact h3

/-- Claim C2 (counterexample): At the concrete tracker state holding a
stale cooldown (`coolingDown = true`, `cooldownUntil = 5`) and
`now = 10`, `earliestAvailableMs` returns 5, which is strictly below
`now` — refuting the claimed `earliestAvailable(chain) ≥ now` for every
tracker state. -/
theorem c2_earliest_available_counterexample :
    earliestAvailableMs 5 10 [some ⟨true, 5, none, none, none, none⟩] = 5 ∧
      ((5 : Int) < 10) := by
  exact ⟨by decide, by decide⟩

end EarliestTheorems

section RouterTheorems

/-- Lemma: `isAvailable` never changes the failure count of the circuit it
returns. -/
theorem isAvailable_preserves_failureCount (cooldownMs now : Int)
    (c : ProviderCircuit) :
    ((CircuitBreaker.isAvailable cooldownMs now c).2).failureCount =
      c.failureCount := by
  unfold CircuitBreaker.isAvailable
  match hs : c.state with
  | .closed => rfl
  | .opened => dsimp only; split <;> rfl
  | .halfOpen => dsimp only; split <;> rfl

/-- Claim C1 (counterexample): With both vendors' circuits closed, no
tracker state, adapters registered, the first candidate failing with a
transport (non-`ProviderError`) error and the second candidate
succeeding, the attempt loop propagates the transport error to the
caller — it does not try the next candidate — and the failing vendor's
breaker count stays 0 (it is not incremented). -/
theorem c1_transport_counterexample :
    (Router.executeProviderChain 5 60000 5 1000 (fun _ => true)
        (fun p _ => if p = .openai then .transportError
          else .ok 200 ⟨none, none, none, none⟩ 60000)
        [(.openai, "gpt-4o"), (.anthropic, "claude-opus-4-6")]
        ⟨fun _ => CircuitBreaker.initCircuit, fun _ _ => none⟩).1 =
      .transportErrorOut ∧
    ((Router.executeProviderChain 5 60000 5 1000 (fun _ => true)
        (fun p _ => if p = .openai then .transportError
          else .ok 200 ⟨none, none, none, none⟩ 60000)
        [(.openai, "gpt-4o"), (.anthropic, "claude-opus-4-6")]
        ⟨fun _ => CircuitBreaker.initCircuit, fun _ _ => none⟩).2.breaker
      .openai).failureCount = 0 := by
  exact ⟨rfl, rfl⟩

/-- Lemma: `setBreaker` leaves the tracker map untouched. -/
theorem setBreaker_tracker (st : RouterState) (p : Provider)
    (c : ProviderCircuit) : (Router.setBreaker st p c).tracker = st.tracker :=
  rfl

/-- Lemma: `setTracker` leaves the breaker map untouched. -/
theorem setTracker_breaker (st : RouterState) (p : Provider) (m : String)
    (t : Option ProviderModelState) :
    (Router.setTracker st p m t).breaker = st.breaker :=
  rfl

/-- Claim C1 (amended): When the adapter call for the first admitted
candidate rejects with anything that is not a `ProviderError` (a
transport failure), `executeProviderChain` rethrows it immediately:
the outcome is the propagated transport error, the remaining candidates
are never consulted, the tracker and breaker are not updated from the
error, and in particular no vendor's failure count changes (the only
state touched is the availability/avoidance bookkeeping of the checks
themselves). -/
theorem c1_transport_propagates (failureThreshold : Nat)
    (cooldownMs lowThreshold now : Int) (hasAdapter : Provider → Bool)
    (call : Provider → String → CallOutcome) (p : Provider) (m : String)
    (rest : List (Provider × String)) (st : RouterState)
    (c' : ProviderCircuit) (t' : Option ProviderModelState)
    (hA : CircuitBreaker.isAvailable cooldownMs now (st.breaker p) = (true, c'))
    (hS : RateLimitTracker.shouldAvoid lowThreshold now (st.tracker p m) =
      (false, t'))
    (hAd : hasAdapter p = true)
    (hCall : call p m = .transportError) :
    Router.executeProviderChain failureThreshold cooldownMs lowThreshold now
        hasAdapter call ((p, m) :: rest) st =
      (.transportErrorOut,
        Router.setTracker (Router.setBreaker st p c') p m t') ∧
    (∀ q, ((Router.setTracker (Router.setBreaker st p c') p m
        t').breaker q).failureCount = (st.breaker q).failureCount) := by
  constructor
  · simp only [Router.executeProviderChain]
    rw [hA]
    simp only [setBreaker_tracker, hS, hAd, hCall]
    simp
  · intro q
    by_cases hq : q = p
    · subst hq
      have hb : (Router.setTracker (Router.setBreaker st q c') q m
          t').breaker q = c' := by
        simp [Router.setTracker, Router.setBreaker]
      rw [hb, show c' = (CircuitBreaker.isAvailable cooldownMs now
        (st.breaker q)).2 from by rw [hA]]
      exact isAvailable_preserves_failureCount cooldownMs now (st.breaker q)
    · simp [Router.setTracker, Router.setBreaker, hq]

/-- Witness for C1 (amended) at the counterexample's input. -/
theorem c1_transport_propagates_witness :
    Router.executeProviderChain 5 60000 5 1000 (fun _ => true)
        (fun p _ => if p = .openai then .transportError
          else .ok 200 ⟨none, none, none, none⟩ 60000)
        [(.openai, "gpt-4o"), (.anthropic, "claude-opus-4-6")]
        ⟨fun _ => CircuitBreaker.initCircuit, fun _ _ => none⟩ =
      (.transportErrorOut,
        Router.setTracker
          (Router.setBreaker
            ⟨fun _ => CircuitBreaker.initCircuit, fun _ _ => none⟩
            .openai CircuitBreaker.initCircuit)
          .openai "gpt-4o" none) := by
  exact (c1_transport_propagates 5 60000 5 1000 (fun _ => true)
    (fun p _ => if p = .openai then .transportError
      else .ok 200 ⟨none, none, none, none⟩ 60000)
    .openai "gpt-4o" [(.anthropic, "claude-opus-4-6")]
    ⟨fun _ => CircuitBreaker.initCircuit, fun _ _ => none⟩
    CircuitBreaker.initCircuit none rfl rfl rfl rfl).1

/-- Claim C10: For every capability other than chat, the Anthropic
adapter raises `ProviderError('anthropic', 400, …)` without consulting
the HTTP round trip (the outcome is the same for any `http` oracle);
and since 400 is a non-429 client error, the router's attempt loop
propagates it immediately instead of trying the remaining candidates. -/
theorem c10_anthropic_non_chat_client_fatal :
    (∀ (capability : Capability), capability ≠ .chat →
      ∀ http₁ http₂ : Unit → CallOutcome,
        AnthropicAdapter.call capability http₁ =
          .providerError .anthropic 400 AnthropicAdapter.emptyParsedHeaders
            60000 ∧
        AnthropicAdapter.call capability http₁ =
          AnthropicAdapter.call capability http₂) ∧
    (∀ (failureThreshold : Nat) (cooldownMs lowThreshold now : Int)
      (hasAdapter : Provider → Bool)
      (call : Provider → String → CallOutcome) (m : String)
      (rest : List (Provider × String)) (st : RouterState)
      (c' : ProviderCircuit) (t' : Option ProviderModelState),
      CircuitBreaker.isAvailable cooldownMs now (st.breaker .anthropic) =
        (true, c') →
      RateLimitTracker.shouldAvoid lowThreshold now
        (st.tracker .anthropic m) = (false, t') →
      hasAdapter .anthropic = true →
      call .anthropic m =
        .providerError .anthropic 400 AnthropicAdapter.emptyParsedHeaders
          60000 →
      (Router.executeProviderChain failureThreshold cooldownMs lowThreshold
        now hasAdapter call ((.anthropic, m) :: rest) st).1 =
        .providerErrorOut .anthropic 400) := by
  constructor
  · intro capability hcap http₁ http₂
    constructor
    · unfold AnthropicAdapter.call
      rw [if_pos hcap]
    · unfold AnthropicAdapter.call
      rw [if_pos hcap, if_pos hcap]
  · intro failureThreshold cooldownMs lowThreshold now hasAdapter call m rest
      st c' t' hA hS hAd hCall
    simp only [Router.executeProviderChain]
    rw [hA]
    simp only [setBreaker_tracker, hS, hAd, hCall]
    simp

/-- Witness for C10: the images capability against the Anthropic
adapter, then the loop with an Anthropic-first chain and a healthy
OpenAI candidate behind it: the 400 is surfaced, OpenAI is not tried. -/
theorem c10_anthropic_non_chat_client_fatal_witness :
    AnthropicAdapter.call .images (fun _ => .transportError) =
      .providerError .anthropic 400 AnthropicAdapter.emptyParsedHeaders 60000 ∧
    (Router.executeProviderChain 5 60000 5 1000 (fun _ => true)
        (fun p _ => if p = .anthropic then
            .providerError .anthropic 400 AnthropicAdapter.emptyParsedHeaders
              60000
          else .ok 200 ⟨none, none, none, none⟩ 60000)
        [(.anthropic, "claude-opus-4-6"), (.openai, "gpt-4o")]
        ⟨fun _ => CircuitBreaker.initCircuit, fun _ _ => none⟩).1 =
      .providerErrorOut .anthropic 400 := by
  constructor
  · exact (c10_anthropic_non_chat_client_fatal.1 .images (by decide)
      (fun _ => .transportError) (fun _ => .transportError)).1
  · exact c10_anthropic_non_chat_client_fatal.2 5 60000 5 1000 (fun _ => true)
      (fun p _ => if p = .anthropic then
          .providerError .anthropic 400 AnthropicAdapter.emptyParsedHeaders
            60000
        else .ok 200 ⟨none, none, none, none⟩ 60000)
      "claude-opus-4-6" [(.openai, "gpt-4o")]
      ⟨fun _ => CircuitBreaker.initCircuit, fun _ _ => none⟩
      CircuitBreaker.initCircuit none rfl rfl rfl rfl

end RouterTheorems

section RouteHeaderTheorems

open Routes

/-- Claim C3 (counterexample): A routed chat reply carries no
`x-ai-router-provider` (or `x-ai-router-model`) header — only the
request id — and the middleware echoes the inbound
`x-request-id: my-custom-request-id` although it is not a well-formed
UUID (instead of replacing it with the fresh UUID), exactly as the
repository's own integration test expects. -/
theorem c3_headers_counterexample :
    (∀ v, ("x-ai-router-provider", v) ∉
      chatRoutedReplyHeaders "rid-1" .openai "gpt-4o") ∧
    (∀ v, ("x-ai-router-model", v) ∉
      chatRoutedReplyHeaders "rid-1" .openai "gpt-4o") ∧
    computeRequestId (some "my-custom-request-id")
      "f47ac10b-58cc-4372-a567-0e02b2c3d479" = "my-custom-request-id" ∧
    isWellFormedUuid "my-custom-request-id" = false ∧
    specRequestId (some "my-custom-request-id")
      "f47ac10b-58cc-4372-a567-0e02b2c3d479" =
      "f47ac10b-58cc-4372-a567-0e02b2c3d479" := by
  refine ⟨?_, ?_, by decide, by decide, by decide⟩
  · intro v hv
    simp [chatRoutedReplyHeaders] at hv
  · intro v hv
    simp [chatRoutedReplyHeaders] at hv

/-- Claim C3 (amended): Only the messages entry point's routed replies
carry `x-ai-router-provider` and `x-ai-router-model` (the vendor-side
name actually used); the chat and images entry points attach only
`x-request-id`, and there is no embeddings entry point; `x-request-id`
echoes the inbound header exactly when it is a non-empty string
(well-formed or not) and is otherwise a fresh UUID. -/
theorem c3_headers_amended (requestId servedModel : String) (p : Provider)
    (inbound : Option String) (freshUuid : String) :
    (("x-ai-router-provider",
        (match p with
          | .openai => "openai" | .anthropic => "anthropic"
          | .google => "google")) ∈
      messagesRoutedReplyHeaders requestId p servedModel ∧
      ("x-ai-router-model", servedModel) ∈
        messagesRoutedReplyHeaders requestId p servedModel ∧
      ("x-request-id", requestId) ∈
        messagesRoutedReplyHeaders requestId p servedModel) ∧
    (chatRoutedReplyHeaders requestId p servedModel =
        [("x-request-id", requestId)] ∧
      imagesRoutedReplyHeaders requestId p servedModel =
        [("x-request-id", requestId)]) ∧
    ((∀ s, inbound = some s → s.length > 0 →
        computeRequestId inbound freshUuid = s) ∧
      (∀ s, inbound = some s → s.length = 0 →
        computeRequestId inbound freshUuid = freshUuid) ∧
      (inbound = none → computeRequestId inbound freshUuid = freshUuid)) := by
  refine ⟨⟨?_, ?_, ?_⟩, ⟨rfl, rfl⟩, ?_, ?_, ?_⟩
  · simp [messagesRoutedReplyHeaders]
  · simp [messagesRoutedReplyHeaders]
  · simp [messagesRoutedReplyHeaders]
  · intro s hs hlen
    subst hs
    simp [computeRequestId, hlen]
  · intro s hs hlen
    subst hs
    simp [computeRequestId, hlen]
  · intro hs
    subst hs
    rfl

/-- Witness for C3 (amended) at concrete values. -/
theorem c3_headers_amended_witness :
    ("x-ai-router-provider", "anthropic") ∈
      messagesRoutedReplyHeaders "rid-1" .anthropic "claude-opus-4-6" ∧
    chatRoutedReplyHeaders "rid-1" .anthropic "claude-opus-4-6" =
      [("x-request-id", "rid-1")] ∧
    computeRequestId (some "my-custom-request-id") "fresh" =
      "my-custom-request-id" := by
  have h := c3_headers_amended "rid-1" "claude-opus-4-6" .anthropic
    (some "my-custom-request-id") "fresh"
  exact ⟨h.1.1, h.2.1.1, h.2.2.1 "my-custom-request-id" rfl (by decide)⟩

end RouteHeaderTheorems

section RoundTripTheorems

/-- A list with no system-role entries contributes an empty
concatenated system prompt. -/
theorem systemText_of_no_system (msgs : List ChatMessage)
    (h : ∀ m ∈ msgs, m.role ≠ ChatRole.system) :
    AnthropicAdapter.systemText msgs = "" := by
  unfold AnthropicAdapter.systemText
  have : msgs.filter (fun m => m.role = ChatRole.system) = [] := by
    rw [List.filter_eq_nil_iff]
    intro m hm
    simp [h m hm]
  rw [this]
  rfl

/-- The in-place converters undo each other on plain string messages
with user/assistant roles. -/
theorem convert_back_id (m : ChatMessage) (hplain : PlainStringMessage m)
    (hrole : UserOrAssistant m) :
    (fun am : AnthropicMessage =>
      ({ role := if am.isAssistant then ChatRole.assistant else ChatRole.user
         content := match am.content with
           | .str s => ChatContent.str s
           | .blocks bs => ChatContent.str (String.join bs)
         name := none
         tool_call_id := none } : ChatMessage))
      (AnthropicAdapter.convertMessage m) = m := by
  obtain ⟨⟨s, hcontent⟩, hname, htool⟩ := hplain
  cases m with
  | mk role content name tool_call_id =>
      simp only at hcontent hname htool
      subst hcontent hname htool
      rcases hrole with h | h <;>
        simp only at h <;> subst h <;> rfl

/-- Tail of the round trip: filtering out (absent) system messages and
converting there and back is the identity on plain user/assistant
string messages. -/
theorem roundtrip_tail_id (msgs : List ChatMessage)
    (hplain : ∀ m ∈ msgs, PlainStringMessage m)
    (hrole : ∀ m ∈ msgs, UserOrAssistant m) :
    ((msgs.filter (fun m => m.role ≠ ChatRole.system)).map
        AnthropicAdapter.convertMessage).map
      (fun am : AnthropicMessage =>
        ({ role := if am.isAssistant then ChatRole.assistant else ChatRole.user
           content := match am.content with
             | .str s => ChatContent.str s
             | .blocks bs => ChatContent.str (String.join bs)
           name := none
           tool_call_id := none } : ChatMessage)) = msgs := by
  have hfilter : msgs.filter (fun m => m.role ≠ ChatRole.system) = msgs := by
    rw [List.filter_eq_self]
    intro m hm
    rcases hrole m hm with h | h <;> simp [h]
  rw [hfilter, List.map_map]
  refine (List.map_congr_left ?_).trans (List.map_id _)
  intro m hm
  exact convert_back_id m (hplain m hm) (hrole m hm)

/-- Claim C8 (counterexample): At the concrete OpenAI body whose single
user message carries content *parts* (`[{type:'text', text:'hi'}]`) and
whose `max_tokens` is absent, the round trip flattens the parts to the
plain string `"hi"` and materialises `max_tokens = 4096`: `messages`
and `max_tokens` are not preserved, refuting the claim for every
OpenAI-shaped body. -/
theorem c8_round_trip_counterexample :
    (anthropicRoundTrip
        ⟨"m", [⟨.user, .parts [⟨"text", some "hi"⟩], none, none⟩], none, none,
          none, none, none, none, none, none, none⟩ "m").messages ≠
      [⟨.user, .parts [⟨"text", some "hi"⟩], none, none⟩] ∧
    (anthropicRoundTrip
        ⟨"m", [⟨.user, .parts [⟨"text", some "hi"⟩], none, none⟩], none, none,
          none, none, none, none, none, none, none⟩ "m").messages =
      [⟨.user, .str "hi", none, none⟩] ∧
    (anthropicRoundTrip
        ⟨"m", [⟨.user, .parts [⟨"text", some "hi"⟩], none, none⟩], none, none,
          none, none, none, none, none, none, none⟩ "m").max_tokens =
      some 4096 := by
  refine ⟨by decide, by decide, by decide⟩

/-- Claim C8 (amended): The round trip `OpenAI body → Anthropic body →
OpenAI body` (with `translateRequest` invoked at any `providerModel`)
always preserves `temperature`, `top_p` and `stream`, drops
`frequency_penalty`, `presence_penalty` and `logprobs`, returns
`providerModel` in `model` (hence preserves `model` exactly when called
with the body's own name), and forces `max_tokens` to its value when
present and to the 4096 default when absent; `messages` is preserved
when every message is a plain string message (no `name`/`tool_call_id`)
and the roles are user/assistant, allowing one leading system message
with non-empty string content. -/
theorem c8_round_trip (body : NormalizedChatRequest) (providerModel : String) :
    (anthropicRoundTrip body providerModel).model = providerModel ∧
    (anthropicRoundTrip body providerModel).temperature = body.temperature ∧
    (anthropicRoundTrip body providerModel).top_p = body.top_p ∧
    (anthropicRoundTrip body providerModel).stream = body.stream ∧
    (anthropicRoundTrip body providerModel).max_tokens =
      some (body.max_tokens.getD 4096) ∧
    (anthropicRoundTrip body providerModel).frequency_penalty = none ∧
    (anthropicRoundTrip body providerModel).presence_penalty = none ∧
    (anthropicRoundTrip body providerModel).logprobs = none ∧
    ((∀ m ∈ body.messages, PlainStringMessage m) →
      ((∀ m ∈ body.messages, UserOrAssistant m) →
        (anthropicRoundTrip body providerModel).messages = body.messages) ∧
      (∀ s rest, body.messages = ⟨.system, .str s, none, none⟩ :: rest →
        s ≠ "" → (∀ m ∈ rest, UserOrAssistant m) →
        (anthropicRoundTrip body providerModel).messages = body.messages)) := by
  refine ⟨rfl, rfl, rfl, rfl, rfl, rfl, rfl, rfl, ?_⟩
  intro hplain
  constructor
  · intro hrole
    have hsys : AnthropicAdapter.systemText body.messages = "" :=
      systemText_of_no_system body.messages
        (fun m hm => by rcases hrole m hm with h | h <;> simp [h])
    show (MessagesRoute.anthropicToOpenAI
      (AnthropicAdapter.translateRequest body providerModel)).messages =
      body.messages
    unfold MessagesRoute.anthropicToOpenAI AnthropicAdapter.translateRequest
    simp only [hsys, ne_eq, not_true_eq_false, if_false, reduceIte]
    exact roundtrip_tail_id body.messages hplain hrole
  · intro s rest hmsgs hs hrole
    have hsys : AnthropicAdapter.systemText
        (⟨.system, .str s, none, none⟩ :: rest) = s := by
      unfold AnthropicAdapter.systemText
      have : rest.filter (fun m => m.role = ChatRole.system) = [] := by
        rw [List.filter_eq_nil_iff]
        intro m hm
        rcases hrole m hm with h | h <;> simp [h]
      simp only [List.filter_cons, this]
      norm_num [String.intercalate]
      rfl
    show (MessagesRoute.anthropicToOpenAI
      (AnthropicAdapter.translateRequest body providerModel)).messages =
      body.messages
    unfold MessagesRoute.anthropicToOpenAI AnthropicAdapter.translateRequest
    rw [hmsgs]
    simp only [hsys]
    rw [if_pos hs]
    dsimp only
    rw [if_pos hs]
    have htail : (((⟨.system, .str s, none, none⟩ :: rest
        : List ChatMessage).filter (fun m => m.role ≠ ChatRole.system)).map
        AnthropicAdapter.convertMessage).map
      (fun am : AnthropicMessage =>
        ({ role := if am.isAssistant then ChatRole.assistant else ChatRole.user
           content := match am.content with
             | .str s => ChatContent.str s
             | .blocks bs => ChatContent.str (String.join bs)
           name := none
           tool_call_id := none } : ChatMessage)) = rest := by
      have hhead : ((⟨.system, .str s, none, none⟩ :: rest
          : List ChatMessage).filter (fun m => m.role ≠ ChatRole.system)) =
          rest.filter (fun m => m.role ≠ ChatRole.system) := by
        simp [List.filter_cons]
      rw [hhead]
      exact roundtrip_tail_id rest
        (fun m hm => hplain m (by rw [hmsgs]; exact List.mem_cons_of_mem _ hm))
        hrole
    rw [htail]
    rfl

/-- Witness for C8 at a concrete two-message body (leading system
message, then a user message), round-tripped through its own model
name. -/
theorem c8_round_trip_witness :
    (anthropicRoundTrip
        ⟨"gpt-4o", [⟨.system, .str "be nice", none, none⟩,
          ⟨.user, .str "hi", none, none⟩], some true, none, some 256, none,
          none, none, none, none, none⟩ "gpt-4o").messages =
      [⟨.system, .str "be nice", none, none⟩,
        ⟨.user, .str "hi", none, none⟩] ∧
    (anthropicRoundTrip
        ⟨"gpt-4o", [⟨.system, .str "be nice", none, none⟩,
          ⟨.user, .str "hi", none, none⟩], some true, none, some 256, none,
          none, none, none, none, none⟩ "gpt-4o").model = "gpt-4o" ∧
    (anthropicRoundTrip
        ⟨"gpt-4o", [⟨.system, .str "be nice", none, none⟩,
          ⟨.user, .str "hi", none, none⟩], some true, none, some 256, none,
          none, none, none, none, none⟩ "gpt-4o").max_tokens = some 256 := by
  have h := c8_round_trip
    ⟨"gpt-4o", [⟨.system, .str "be nice", none, none⟩,
      ⟨.user, .str "hi", none, none⟩], some true, none, some 256, none,
      none, none, none, none, none⟩ "gpt-4o"
  refine ⟨?_, h.1, h.2.2.2.2.1⟩
  refine (h.2.2.2.2.2.2.2.2 ?_).2 "be nice"
    [⟨.user, .str "hi", none, none⟩] rfl (by decide) ?_
  · intro m hm
    simp only [List.mem_cons, List.not_mem_nil, or_false] at hm
    rcases hm with rfl | rfl
    · exact ⟨⟨"be nice", rfl⟩, rfl, rfl⟩
    · exact ⟨⟨"hi", rfl⟩, rfl, rfl⟩
  · intro m hm
    simp only [List.mem_singleton] at hm
    subst hm
    exact Or.inl rfl

end RoundTripTheorems

section StreamTheorems

open Streaming

/-- Lemma: `splitNl` always yields at least one segment. -/
theorem splitNl_ne_nil : ∀ s : List Char, splitNl s ≠ []
  | [] => by simp [splitNl]
  | c :: rest => by
      simp only [splitNl]
      split
      · simp
      · cases h : splitNl rest <;> simp [consHead]

/-- Unfolding `splitNl` at a newline. -/
theorem splitNl_cons_nl (rest : List Char) :
    splitNl ('\n' :: rest) = [] :: splitNl rest := by
  rw [splitNl, if_pos rfl]

/-- Unfolding `splitNl` at a non-newline character. -/
theorem splitNl_cons_of_ne (c : Char) (rest : List Char) (hc : ¬ c = '\n') :
    splitNl (c :: rest) = consHead c (splitNl rest) := by
  rw [splitNl, if_neg hc]

/-- Lemma: `getLastD` of a non-empty list ignores the default. -/
theorem getLastD_default_irrel {α : Type} :
    ∀ (l : List α) (d d' : α), l ≠ [] → l.getLastD d = l.getLastD d'
  | [], _, _, h => absurd rfl h
  | [x], d, d', _ => rfl
  | x :: y :: ys, d, d', _ => by
      rw [List.getLastD_cons d x, List.getLastD_cons d' x]

/-- Lemma: `getLastD` skips a head when the tail is non-empty. -/
theorem getLastD_cons_of_ne_nil {α : Type} (x : α) (l : List α) (d : α)
    (h : l ≠ []) : (x :: l).getLastD d = l.getLastD d := by
  rw [List.getLastD_cons]
  exact getLastD_default_irrel l x d h

/-- Lemma: `getLastD` of an append with non-empty right part. -/
theorem getLastD_append_of_ne_nil {α : Type} :
    ∀ (xs ys : List α) (d : α), ys ≠ [] →
      (xs ++ ys).getLastD d = ys.getLastD d
  | [], ys, d, _ => rfl
  | x :: xs, ys, d, h => by
      rw [List.cons_append,
        getLastD_cons_of_ne_nil x (xs ++ ys) d (by simp [h]),
        getLastD_append_of_ne_nil xs ys d h]

/-- Lemma: `dropLast` skips a head when the tail is non-empty. -/
theorem dropLast_cons_of_ne_nil {α : Type} (x : α) (l : List α)
    (h : l ≠ []) : (x :: l).dropLast = x :: l.dropLast := by
  cases l with
  | nil => exact absurd rfl h
  | cons y ys => rfl

/-- Lemma: `dropLast` of an append with non-empty right part. -/
theorem dropLast_append_of_ne_nil {α : Type} :
    ∀ (xs ys : List α), ys ≠ [] → (xs ++ ys).dropLast = xs ++ ys.dropLast
  | [], ys, _ => rfl
  | x :: xs, ys, h => by
      rw [List.cons_append,
        dropLast_cons_of_ne_nil x (xs ++ ys) (by simp [h]),
        dropLast_append_of_ne_nil xs ys h, List.cons_append]

/-- Splitting a newline-free string yields the single segment. -/
theorem splitNl_of_no_nl : ∀ s : List Char, '\n' ∉ s → splitNl s = [s]
  | [], _ => rfl
  | c :: rest, h => by
      have hc : ¬(c = '\n') := fun hcc => h (hcc ▸ List.mem_cons_self c rest)
      rw [splitNl_cons_of_ne c rest hc,
        splitNl_of_no_nl rest (fun hm => h (List.mem_cons_of_mem c hm))]
      rfl

/-- The final segment of a split never contains a newline. -/
theorem no_nl_getLastD_splitNl : ∀ s : List Char,
    '\n' ∉ (splitNl s).getLastD []
  | [] => by simp [splitNl]
  | c :: rest => by
      by_cases hc : c = '\n'
      · subst hc
        rw [splitNl_cons_nl rest,
          getLastD_cons_of_ne_nil _ _ _ (splitNl_ne_nil rest)]
        exact no_nl_getLastD_splitNl rest
      · rw [splitNl_cons_of_ne c rest hc]
        have ih := no_nl_getLastD_splitNl rest
        cases h : splitNl rest with
        | nil => exact absurd h (splitNl_ne_nil rest)
        | cons l ls =>
            rw [h] at ih
            cases ls with
            | nil =>
                simp only [consHead, List.getLastD_cons, List.getLastD] at ih ⊢
                intro hmem
                rcases List.mem_cons.mp hmem with hmem | hmem
                · exact hc hmem.symm
                · exact ih hmem
            | cons l' ls' =>
                simp only [consHead]
                rw [getLastD_cons_of_ne_nil _ _ _ (by simp)]
                rw [getLastD_cons_of_ne_nil _ _ _ (by simp)] at ih
                exact ih

/-- The split of an append: complete segments of the left part, then
the split of the dangling fragment glued to the right part. -/
theorem splitNl_append : ∀ a b : List Char,
    splitNl (a ++ b) =
      (splitNl a).dropLast ++ splitNl ((splitNl a).getLastD [] ++ b)
  | [], b => by simp [splitNl]
  | c :: a', b => by
      by_cases hc : c = '\n'
      · subst hc
        rw [List.cons_append, splitNl_cons_nl (a' ++ b), splitNl_cons_nl a',
          splitNl_append a' b,
          dropLast_cons_of_ne_nil _ _ (splitNl_ne_nil a'),
          getLastD_cons_of_ne_nil _ _ _ (splitNl_ne_nil a')]
        rfl
      · cases h : splitNl a' with
        | nil => exact absurd h (splitNl_ne_nil a')
        | cons l ls =>
            rw [List.cons_append, splitNl_cons_of_ne c (a' ++ b) hc,
              splitNl_cons_of_ne c a' hc, splitNl_append a' b, h]
            cases ls with
            | nil =>
                rw [show (List.getLastD [l] []) = l from rfl,
                  show consHead c [l] = [c :: l] from rfl,
                  show List.dropLast [l] = ([] : List (List Char)) from rfl,
                  show List.dropLast [c :: l] = ([] : List (List Char)) from rfl,
                  show (List.getLastD [c :: l] []) = c :: l from rfl,
                  List.nil_append, List.nil_append,
                  show ((c :: l) ++ b) = c :: (l ++ b) from rfl,
                  splitNl_cons_of_ne c (l ++ b) hc]
            | cons l' ls' =>
                simp only [consHead]
                rw [dropLast_cons_of_ne_nil l (l' :: ls') (by simp),
                  dropLast_cons_of_ne_nil (c :: l) (l' :: ls') (by simp),
                  getLastD_cons_of_ne_nil l (l' :: ls') [] (by simp),
                  getLastD_cons_of_ne_nil (c :: l) (l' :: ls') [] (by simp)]
                rfl

/-- The buffered splitter of the adapters computes, for any chunking, a
function of the concatenated upstream bytes only. -/
theorem lineBufferedGo_eq_emitBuffered (conv : List Char → Option (List Char)) :
    ∀ (chunks : List (List Char)) (buffer : List Char), '\n' ∉ buffer →
      lineBufferedGo conv buffer chunks =
        emitBuffered conv (buffer ++ chunks.flatten)
  | [], buffer, hb => by
      simp only [lineBufferedGo, emitBuffered, List.flatten_nil,
        List.append_nil]
      rw [splitNl_of_no_nl buffer hb,
        show ([buffer] : List (List Char)).getLastD [] = buffer from rfl]
      simp only [List.dropLast_single, List.filterMap_nil, List.nil_append]
  | chunk :: rest, buffer, hb => by
      simp only [lineBufferedGo, List.flatten_cons]
      rw [lineBufferedGo_eq_emitBuffered conv rest _
        (no_nl_getLastD_splitNl (buffer ++ chunk))]
      rw [show buffer ++ (chunk ++ rest.flatten) =
        (buffer ++ chunk) ++ rest.flatten from (List.append_assoc _ _ _).symm]
      conv_rhs => rw [emitBuffered]
      rw [splitNl_append (buffer ++ chunk) rest.flatten,
        dropLast_append_of_ne_nil _ _ (splitNl_ne_nil _),
        getLastD_append_of_ne_nil _ _ _ (splitNl_ne_nil _),
        List.filterMap_append, List.append_assoc]
      rfl

/-- A converter that swallows the empty line ignores a trailing empty
segment. -/
theorem filterMap_pair_nil (conv : List Char → Option (List Char))
    (hconv : conv [] = none) (x : List Char) :
    List.filterMap conv [x, []] = List.filterMap conv [x] := by
  cases hx : conv x with
  | none => simp [List.filterMap_cons, hx, hconv]
  | some out => simp [List.filterMap_cons, hx, hconv]

/-- An empty line is swallowed by the Anthropic per-line converter. -/
theorem convertAnthropicStreamLine_nil (now : Int) (model : List Char) :
    convertAnthropicStreamLine now model [] = none := rfl

/-- An empty line is swallowed by the Google per-line converter. -/
theorem convertGoogleStreamLine_nil (now : Int) (model : List Char) :
    convertGoogleStreamLine now model [] = none := rfl

/-- Appending a final newline to a newline-free string splits into the
string and an empty trailing segment. -/
theorem splitNl_concat_nl : ∀ x : List Char, '\n' ∉ x →
    splitNl (x ++ ['\n']) = [x, []]
  | [], _ => rfl
  | c :: x', h => by
      have hc : ¬(c = '\n') := fun hcc => h (hcc ▸ List.mem_cons_self c x')
      rw [List.cons_append,
        show splitNl (c :: (x' ++ ['\n'])) =
          if c = '\n' then [] :: splitNl (x' ++ ['\n'])
          else consHead c (splitNl (x' ++ ['\n'])) from rfl,
        if_neg hc,
        splitNl_concat_nl x' (fun hm => h (List.mem_cons_of_mem c hm))]
      rfl

/-- On chunkings whose chunks are newline-terminated (or empty), the
unbuffered per-chunk splitter computes a function of the concatenation
only, provided the converter swallows the empty line. -/
theorem flatMap_splitNl_aligned (conv : List Char → Option (List Char))
    (hconv : conv [] = none) :
    ∀ chunks : List (List Char), (∀ c ∈ chunks, ChunkAligned c) →
      chunks.flatMap (fun chunk => (splitNl chunk).filterMap conv) =
        (splitNl chunks.flatten).filterMap conv
  | [], _ => by simp [splitNl, hconv]
  | chunk :: rest, haligned => by
      have hrest : ∀ c ∈ rest, ChunkAligned c :=
        fun c hc => haligned c (List.mem_cons_of_mem _ hc)
      rcases haligned chunk (List.mem_cons_self _ _) with hnil | ⟨c', hc'⟩
      · subst hnil
        simp only [List.flatMap_cons, List.flatten_cons, List.nil_append]
        rw [flatMap_splitNl_aligned conv hconv rest hrest]
        simp [splitNl, hconv]
      · subst hc'
        simp only [List.flatMap_cons, List.flatten_cons]
        rw [flatMap_splitNl_aligned conv hconv rest hrest]
        have hA : splitNl (c' ++ ['\n']) =
            (splitNl c').dropLast ++ [(splitNl c').getLastD [], []] := by
          rw [splitNl_append c' ['\n'],
            splitNl_concat_nl ((splitNl c').getLastD [])
              (no_nl_getLastD_splitNl c')]
        have hlast : (splitNl (c' ++ ['\n'])).getLastD [] = [] := by
          rw [hA, getLastD_append_of_ne_nil _ _ _ (by simp)]
          rfl
        rw [splitNl_append (c' ++ ['\n']) rest.flatten, hlast,
          List.nil_append, List.filterMap_append]
        have hhead : (splitNl (c' ++ ['\n'])).filterMap conv =
            ((splitNl (c' ++ ['\n'])).dropLast).filterMap conv := by
          rw [hA, dropLast_append_of_ne_nil _ _ (by simp),
            List.filterMap_append, List.filterMap_append,
            show ([(splitNl c').getLastD [], []] : List (List Char)).dropLast =
              [(splitNl c').getLastD []] from rfl,
            filterMap_pair_nil conv hconv]
        rw [hhead]

/-- Claim C9 (counterexample): Two chunkings of the same upstream bytes
`data: {"type":"message_stop"}` — one whole, one split in the middle of
the line — give different `normalizeAnthropicStream` outputs: the whole
line converts to `data: [DONE]`, while the two fragments are each
swallowed (the first fails to parse as JSON, the second lacks the
`data: ` prefix).  The rewriter is therefore not invariant under
chunkings with the same concatenation. -/
theorem c9_chunking_counterexample :
    ("data: \x7b\"type\":".toList ++ "\"message_stop\"\x7d".toList =
      "data: \x7b\"type\":\"message_stop\"\x7d".toList) ∧
    normalizeAnthropicStream 0 "m".toList
      ["data: \x7b\"type\":\"message_stop\"\x7d".toList] = [doneChunk] ∧
    normalizeAnthropicStream 0 "m".toList
      ["data: \x7b\"type\":".toList, "\"message_stop\"\x7d".toList] = [] := by
  refine ⟨by decide, by decide, by decide⟩

/-- Claim C9 (amended): The adapters' buffered splitters
(`bodyToAsyncIterable`, which carry a partial line across reads) emit
identical output for any two chunkings of the same upstream byte
sequence; the route-level `normalizeAnthropicStream` and
`normalizeGoogleStream` have no cross-chunk buffer and are invariant
only across chunkings whose chunks are newline-terminated (a line is
never split across reads). -/
theorem c9_stream_chunking_invariance (now : Int) (model : List Char) :
    (∀ chunks₁ chunks₂ : List (List Char), chunks₁.flatten = chunks₂.flatten →
      anthropicBodyToAsyncIterable now model chunks₁ =
          anthropicBodyToAsyncIterable now model chunks₂ ∧
        googleBodyToAsyncIterable now model chunks₁ =
          googleBodyToAsyncIterable now model chunks₂) ∧
    (∀ chunks₁ chunks₂ : List (List Char),
      (∀ c ∈ chunks₁, ChunkAligned c) → (∀ c ∈ chunks₂, ChunkAligned c) →
      chunks₁.flatten = chunks₂.flatten →
      normalizeAnthropicStream now model chunks₁ =
          normalizeAnthropicStream now model chunks₂ ∧
        normalizeGoogleStream now model chunks₁ =
          normalizeGoogleStream now model chunks₂) := by
  constructor
  · intro chunks₁ chunks₂ hflat
    constructor
    · unfold anthropicBodyToAsyncIterable
      rw [lineBufferedGo_eq_emitBuffered _ chunks₁ [] (by simp),
        lineBufferedGo_eq_emitBuffered _ chunks₂ [] (by simp),
        List.nil_append, List.nil_append, hflat]
    · unfold googleBodyToAsyncIterable
      rw [lineBufferedGo_eq_emitBuffered _ chunks₁ [] (by simp),
        lineBufferedGo_eq_emitBuffered _ chunks₂ [] (by simp),
        List.nil_append, List.nil_append, hflat]
  · intro chunks₁ chunks₂ ha₁ ha₂ hflat
    constructor
    · unfold normalizeAnthropicStream
      rw [flatMap_splitNl_aligned _ (convertAnthropicStreamLine_nil now model)
          chunks₁ ha₁,
        flatMap_splitNl_aligned _ (convertAnthropicStreamLine_nil now model)
          chunks₂ ha₂, hflat]
    · unfold normalizeGoogleStream
      rw [flatMap_splitNl_aligned _ (convertGoogleStreamLine_nil now model)
          chunks₁ ha₁,
        flatMap_splitNl_aligned _ (convertGoogleStreamLine_nil now model)
          chunks₂ ha₂, hflat]

/-- Witness for C9 (amended): the split `message_stop` chunking and the
whole line produce the same output through the *buffered* splitter, and
two line-aligned chunkings agree through the route-level rewriter. -/
theorem c9_stream_chunking_invariance_witness :
    anthropicBodyToAsyncIterable 0 "m".toList
        ["data: \x7b\"type\":".toList, "\"message_stop\"\x7d\n".toList] =
      anthropicBodyToAsyncIterable 0 "m".toList
        ["data: \x7b\"type\":\"message_stop\"\x7d\n".toList] ∧
    normalizeAnthropicStream 0 "m".toList
        ["data: \x7b\"type\":\"message_stop\"\x7d\n".toList, "\n".toList] =
      normalizeAnthropicStream 0 "m".toList
        ["data: \x7b\"type\":\"message_stop\"\x7d\n\n".toList] := by
  constructor
  · exact ((c9_stream_chunking_invariance 0 "m".toList).1
      ["data: \x7b\"type\":".toList, "\"message_stop\"\x7d\n".toList]
      ["data: \x7b\"type\":\"message_stop\"\x7d\n".toList] (by decide)).1
  · exact ((c9_stream_chunking_invariance 0 "m".toList).2
      ["data: \x7b\"type\":\"message_stop\"\x7d\n".toList, "\n".toList]
      ["data: \x7b\"type\":\"message_stop\"\x7d\n\n".toList]
      (by
        intro c hc
        simp only [List.mem_cons, List.not_mem_nil, or_false] at hc
        rcases hc with rfl | rfl
        · exact Or.inr ⟨"data: \x7b\"type\":\"message_stop\"\x7d".toList,
            by decide⟩
        · exact Or.inr ⟨[], by decide⟩)
      (by
        intro c hc
        simp only [List.mem_singleton] at hc
        subst hc
        exact Or.inr ⟨"data: \x7b\"type\":\"message_stop\"\x7d\n".toList,
          by decide⟩)
      (by decide)).1

end StreamTheorems

end AiRouter
